import Mathlib

/-!
Verification of the `useAmbientSounds` playback-controller hook
(`learnscape-bluebird-49`), against its natural-language specification.

The embedding below follows the generation-counter revision of the hook
(the file with `playIdRef` / `pendingAudioRef` / `loadTimeoutRef` and the
triple-trigger `startPlayback`), which is the design the specification
describes.  The hook runs single-threaded on the browser event loop, so we
model it as a deterministic state-transition system: each user intent
(`play` / `stop` / `toggle` / `setVolume`) and each asynchronous completion
(`canplay` event, `error` event, `audio.play()` promise resolution, the
300ms fallback timer) is one atomic step.  A promise resolution step also
runs its `.then` / `.catch` continuation (in the browser the continuation
is a microtask that runs before any other observable step).

Environment collaborators are modelled explicitly:
  * an audio element is a record of its observable fields
    (`src`, `paused`, `volume`, `loop`, `currentTime`); each `playSound`
    call allocates exactly one element, which we identify by the generation
    that created it;
  * `localStorage` for the single volume key is an `Option String`;
  * JavaScript numbers that flow through the volume path are modelled as
    finite decimals plus `NaN` (`JsNum`): the code never does arithmetic on
    the volume, it only stores it, renders it with `toString` and parses it
    with `parseFloat`, and on that fragment finite decimals are exact.
-/

namespace AmbientHook

/-- `AmbientSound`, exactly the interface of the source file. -/
structure AmbientSound where
  id : String
  name : String
  icon : String
  audioUrl : String
  description : String
deriving DecidableEq, Repr

/-- First catalog entry (`bird-sound`). -/
def birdsSound : AmbientSound :=
  { id := "bird-sound", name := "Birds", icon := "◦",
    audioUrl := "/sounds/ambients/bird sound.mp3",
    description := "Gentle bird chirping" }

/-- Second catalog entry (`bird-sound-2`). -/
def forestBirdsSound : AmbientSound :=
  { id := "bird-sound-2", name := "Forest Birds", icon := "◈",
    audioUrl := "/sounds/ambients/bird sound 2.mp3",
    description := "Forest ambience with birds" }

/-- Third catalog entry (`bird-sound-3`). -/
def morningBirdsSound : AmbientSound :=
  { id := "bird-sound-3", name := "Morning Birds", icon := "◐",
    audioUrl := "/sounds/ambients/bird sound 3 (2).mp3",
    description := "Morning bird sounds" }

/-- Fourth catalog entry (`rain`). -/
def rainSound : AmbientSound :=
  { id := "rain", name := "Rain", icon := "●",
    audioUrl := "/sounds/ambients/rain.mp3",
    description := "Soft rainfall for focus" }

/-- `AMBIENT_SOUNDS`: the fixed catalog of four entries. -/
def AMBIENT_SOUNDS : List AmbientSound :=
  [birdsSound, forestBirdsSound, morningBirdsSound, rainSound]

/-- A finite decimal `units . frac`, e.g. `⟨0, [3]⟩` is `0.3`.  This is the
value domain of the volume path: the code stores a number, renders it with
`toString` and re-reads it with `parseFloat`, and every literal that occurs
(`0.3` and UI slider values) is a finite decimal. -/
structure DecNum where
  units : Nat
  frac : List Nat
deriving DecidableEq, Repr

/-- Digits of a well-formed finite decimal are base-10 digits. -/
def DecNum.Wf (d : DecNum) : Prop := ∀ x ∈ d.frac, x < 10

instance (d : DecNum) : Decidable d.Wf := by
  unfold DecNum.Wf; infer_instance

/-- A JavaScript number as observed on the volume path: a finite decimal or
`NaN` (the result of a failed `parseFloat`). -/
inductive JsNum where
  | nan
  | num (d : DecNum)
deriving DecidableEq, Repr

/-- Character for a single digit (`0 ↦ '0'`, …). -/
def digitToChar (d : Nat) : Char := Char.ofNat (48 + d)

/-- Numeric value of a digit character. -/
def charDigit (c : Char) : Nat := c.toNat - 48

/-- Big-endian digit list to number (the accumulator loop a decimal parser
performs). -/
def natFromDigitsBE (l : List Nat) : Nat := l.foldl (fun n d => 10 * n + d) 0

/-- Decimal rendering of a natural number (JS `Number.prototype.toString`
on a natural). -/
def natToChars (n : Nat) : List Char :=
  if n = 0 then ['0'] else ((Nat.digits 10 n).reverse).map digitToChar

/-- Rendering of a finite decimal, as JS `toString` produces it: no decimal
point when there is no fractional part. -/
def decToChars (d : DecNum) : List Char :=
  natToChars d.units ++ (if d.frac.isEmpty then [] else '.' :: d.frac.map digitToChar)

/-- String form of `decToChars`. -/
def decToString (d : DecNum) : String := String.mk (decToChars d)

/-- Modelled from the spec: JS `Number.prototype.toString` for the values
the controller persists ("value = decimal string encoding of volume").
`NaN` renders as `"NaN"`. -/
def jsToString : JsNum → String
  | JsNum.nan => "NaN"
  | JsNum.num d => decToString d

/-- Modelled from the spec: JS `parseFloat` restricted to the shapes this
program can meet — an optional run of digits, an optional `.` plus digits,
trailing garbage ignored, `NaN` when no digit was found.  (Real `parseFloat`
also skips leading whitespace and accepts signs and exponents; none of those
are produced by `toString` on a volume in `[0,1]`, and on strings with no
leading digit or point, such as `"abc"`, both agree on `NaN`.) -/
def parseFloatChars (cs : List Char) : JsNum :=
  let ds1 := cs.takeWhile Char.isDigit
  let rest := cs.dropWhile Char.isDigit
  let fracCs : List Char :=
    match rest with
    | '.' :: rest2 => rest2.takeWhile Char.isDigit
    | _ => []
  if ds1.isEmpty && fracCs.isEmpty then JsNum.nan
  else JsNum.num ⟨natFromDigitsBE (ds1.map charDigit), fracCs.map charDigit⟩

/-- `parseFloat` on strings. -/
def parseFloatJs (s : String) : JsNum := parseFloatChars s.data

/-- The volume initializer of the hook:
`savedVolume ? parseFloat(savedVolume) : 0.3` after
`localStorage.getItem('ambientSoundVolume')`.  A missing key is `none`; the
empty string is falsy in JS, hence also yields the `0.3` default. -/
def initVolume : Option String → JsNum
  | none => JsNum.num ⟨0, [3]⟩
  | some sv => if sv = "" then JsNum.num ⟨0, [3]⟩ else parseFloatJs sv

/-- Observable fields of one underlying `HTMLAudioElement`. -/
structure AudioElem where
  src : String
  paused : Bool
  volume : JsNum
  loop : Bool
  currentTime : Nat
deriving DecidableEq, Repr

/-- Per-`playSound`-call closure state: the audio element the call created,
the captured sound, the shared `started` flag of the three start triggers,
and whether the `once`-listeners for `canplay` / `error` are still attached. -/
structure Attempt where
  sound : AmbientSound
  audio : AudioElem
  started : Bool
  canplayReg : Bool
  errorReg : Bool
deriving DecidableEq, Repr

/-- The whole state of one mounted hook instance: the React state
(`isPlaying`, `currentSound`, `isLoading`, `volume`), the refs
(`playIdRef`, `audioRef`, `pendingAudioRef`, `loadTimeoutRef`), the heap of
audio elements keyed by the generation that allocated them, the queue of
unresolved `audio.play()` promises (each carrying its captured generation),
the persisted store and a count of logged diagnostics.  `volumeRef` is kept
in lock-step with `volume` by the code (both are written together in
`changeVolume`, and a sync effect mirrors any other write), so one field
models both. -/
structure HookState where
  isPlaying : Bool
  currentSound : Option AmbientSound
  isLoading : Bool
  volume : JsNum
  playId : Nat
  audioRef : Option Nat
  pendingAudioRef : Option Nat
  loadTimeout : Option Nat
  attempts : Nat → Option Attempt
  pendingPlays : List Nat
  store : Option String
  errLog : Nat

/-- Hook initialization: `useState(false)`, `useState(null)`,
`useState(false)`, the lazy volume initializer reading the store once, and
all refs empty with `playIdRef = 0`. -/
def initState (st : Option String) : HookState :=
  { isPlaying := false, currentSound := none, isLoading := false,
    volume := initVolume st, playId := 0, audioRef := none,
    pendingAudioRef := none, loadTimeout := none,
    attempts := fun _ => none, pendingPlays := [], store := st, errLog := 0 }

/-- Overwrite the attempt record of generation `g`. -/
def setAttempt (g : Nat) (att : Attempt) (s : HookState) : HookState :=
  { s with attempts := fun g' => if g' = g then some att else s.attempts g' }

/-- Mutate the audio element allocated by generation `g`. -/
def updateAudio (g : Nat) (f : AudioElem → AudioElem) (s : HookState) : HookState :=
  { s with attempts := fun g' =>
      if g' = g then (s.attempts g').map (fun att => { att with audio := f att.audio })
      else s.attempts g' }

/-- `pause(); currentTime = 0 (stop only); src = ''` on one element. -/
def pauseClear (resetTime : Bool) (a : AudioElem) : AudioElem :=
  { a with paused := true, src := "",
           currentTime := if resetTime then 0 else a.currentTime }

/-- Release the element a ref points at, if any. -/
def releaseRef (og : Option Nat) (resetTime : Bool) (s : HookState) : HookState :=
  match og with
  | some g => updateAudio g (pauseClear resetTime) s
  | none => s

/-- The shared `startPlayback` routine of generation `g`: a no-op when the
attempt already `started` or when the generation was superseded; otherwise
it calls `audio.play()`, i.e. enqueues one pending promise. -/
def startPlayback (g : Nat) (s : HookState) : HookState :=
  match s.attempts g with
  | none => s
  | some att =>
    if att.started then s
    else if s.playId ≠ g then s
    else { s with pendingPlays := s.pendingPlays ++ [g] }

/-- `stopSound`: bump the generation, clear the scheduled retry, release
pending and active elements (with `currentTime = 0`), reset the observable
state to Idle. -/
def stopSound (s : HookState) : HookState :=
  let s1 := { s with playId := s.playId + 1, loadTimeout := none }
  let s2 := { releaseRef s.pendingAudioRef true s1 with pendingAudioRef := none }
  let s3 := { releaseRef s.audioRef true s2 with audioRef := none }
  { s3 with isPlaying := false, currentSound := none, isLoading := false }

/-- The audio element and closure record a `playSound` call allocates:
a fresh looping element at the current volume, not yet started, with both
`once`-listeners attached. -/
def newAttempt (snd : AmbientSound) (v : JsNum) : Attempt :=
  { sound := snd,
    audio := { src := snd.audioUrl, paused := true, volume := v,
               loop := true, currentTime := 0 },
    started := false, canplayReg := true, errorReg := true }

/-- First half of `playSound sound`: claim a fresh generation, set
`isLoading`, clear the scheduled retry, release pending and active elements,
allocate a fresh looping element at the current volume with
`src = sound.audioUrl`, register the `once`-listeners, and park it in
`pendingAudioRef`. -/
def playSoundPrep (snd : AmbientSound) (s : HookState) : HookState :=
  let g := s.playId + 1
  let s1 := { s with playId := g, isLoading := true, loadTimeout := none }
  let s2 := { releaseRef s.pendingAudioRef false s1 with pendingAudioRef := none }
  let s3 := { releaseRef s.audioRef false s2 with audioRef := none }
  { setAttempt g (newAttempt snd s.volume) s3 with pendingAudioRef := some g }

/-- `playSound sound`: the preparation above, then the immediate
`startPlayback` attempt, then scheduling of the 300ms fallback retry. -/
def playSound (snd : AmbientSound) (s : HookState) : HookState :=
  { startPlayback (s.playId + 1) (playSoundPrep snd s) with
    loadTimeout := some (s.playId + 1) }

/-- `toggleSound sound`: stop when the same sound is playing
(`isPlaying && currentSound?.id === sound.id`), otherwise play. -/
def toggleSound (snd : AmbientSound) (s : HookState) : HookState :=
  if s.isPlaying && (match s.currentSound with
                     | some c => c.id == snd.id
                     | none => false)
  then stopSound s
  else playSound snd s

/-- `changeVolume v`: update the live volume (state and ref), persist its
string rendering under the fixed key, and apply it to the active element
when one exists (the merely pending element is not touched). -/
def changeVolume (v : JsNum) (s : HookState) : HookState :=
  let s1 := { s with volume := v, store := some (jsToString v) }
  match s1.audioRef with
  | some g => updateAudio g (fun a => { a with volume := v }) s1
  | none => s1

/-- Successful resolution of one pending `audio.play()` promise of
generation `g`, together with its `.then` continuation: the element starts
producing sound, then the continuation either detects a superseded
generation and pauses it at once, or commits the start transition
(`started`, `audioRef`, `currentSound`, `isPlaying`, `isLoading`, clear the
fallback timer). -/
def resolveOkStep (g : Nat) (s : HookState) : HookState :=
  if s.pendingPlays.contains g then
    let s1 := { s with pendingPlays := s.pendingPlays.erase g }
    match s1.attempts g with
    | none => s1
    | some att =>
      if s1.playId ≠ g then
        updateAudio g (fun a => { a with paused := true }) s1
      else
        let att2 : Attempt :=
          { att with started := true, audio := { att.audio with paused := false } }
        let s2 := setAttempt g att2 s1
        { s2 with audioRef := some g, pendingAudioRef := none,
                  currentSound := some att.sound, isPlaying := true,
                  isLoading := false, loadTimeout := none }
  else s

/-- Rejected `audio.play()` promise: the `.catch` swallows the failure
("will retry on canplay or timeout"). -/
def resolveFailStep (g : Nat) (s : HookState) : HookState :=
  if s.pendingPlays.contains g then
    { s with pendingPlays := s.pendingPlays.erase g }
  else s

/-- The `canplay` event on the element of generation `g`: consume the
`once`-listener and run `startPlayback`. -/
def canplayFire (g : Nat) (s : HookState) : HookState :=
  match s.attempts g with
  | some att =>
    if att.canplayReg then
      let att2 : Attempt := { att with canplayReg := false }
      startPlayback g (setAttempt g att2 s)
    else s
  | none => s

/-- The `error` event on the element of generation `g` (`handleError`):
consume the `once`-listener; a superseded generation is ignored, the live
generation logs a diagnostic and clears `isLoading` — nothing else. -/
def errorFire (g : Nat) (s : HookState) : HookState :=
  match s.attempts g with
  | some att =>
    if att.errorReg then
      let att2 : Attempt := { att with errorReg := false }
      let s1 := setAttempt g att2 s
      if s1.playId ≠ g then s1
      else { s1 with isLoading := false, errLog := s1.errLog + 1 }
    else s
  | none => s

/-- The scheduled 300ms fallback retry fires: run `startPlayback` for the
generation it was scheduled for. -/
def timerFireStep (s : HookState) : HookState :=
  match s.loadTimeout with
  | some g => startPlayback g { s with loadTimeout := none }
  | none => s

/-- One event of the system: a user intent or an asynchronous completion. -/
inductive Ev where
  | play (snd : AmbientSound)
  | stop
  | toggle (snd : AmbientSound)
  | setVol (v : JsNum)
  | canplay (g : Nat)
  | errorEv (g : Nat)
  | resolveOk (g : Nat)
  | resolveFail (g : Nat)
  | timerFire
deriving DecidableEq, Repr

/-- The step function of the system. -/
def step : Ev → HookState → HookState
  | Ev.play snd, s => playSound snd s
  | Ev.stop, s => stopSound s
  | Ev.toggle snd, s => toggleSound snd s
  | Ev.setVol v, s => changeVolume v s
  | Ev.canplay g, s => canplayFire g s
  | Ev.errorEv g, s => errorFire g s
  | Ev.resolveOk g, s => resolveOkStep g s
  | Ev.resolveFail g, s => resolveFailStep g s
  | Ev.timerFire, s => timerFireStep s

/-- Run a trace of events. -/
def run (evs : List Ev) (s : HookState) : HookState :=
  evs.foldl (fun s e => step e s) s

/-- Events issued by the environment rather than the user. -/
def Ev.isAsync : Ev → Bool
  | Ev.play _ => false
  | Ev.stop => false
  | Ev.toggle _ => false
  | Ev.setVol _ => false
  | _ => true

/-- The observable state tuple exposed to the UI. -/
def obs (s : HookState) : Bool × Option AmbientSound × Bool :=
  (s.isPlaying, s.currentSound, s.isLoading)

/-- Whether the live generation has a confirmed start. -/
def confirmedLive (s : HookState) : Bool :=
  match s.attempts s.playId with
  | some att => att.started
  | none => false

/-- Whether the attempt record (if any) holds a paused element. -/
def pausedOpt (o : Option Attempt) : Bool :=
  match o with
  | some att => att.audio.paused
  | none => true

/-- Relation between an attempt-table entry before and after a release-style
update: either untouched, or the same closure record with its element now
paused. -/
def Shadow (o o' : Option Attempt) : Prop :=
  o' = o ∨ ∃ att att', o = some att ∧ o' = some att' ∧
    att'.sound = att.sound ∧ att'.started = att.started ∧
    att'.canplayReg = att.canplayReg ∧ att'.errorReg = att.errorReg ∧
    att'.audio.paused = true

/-- The inductive invariant of the controller:
  * `audibleActive`: any unpaused element is the one `audioRef` holds, so at
    most one element is audible;
  * `activeLive`: `audioRef` only ever holds the live generation;
  * `activeState`: while an element is active the controller is in the
    confirmed `Playing` shape for it (no pending element, no fallback
    timer, `isLoading` cleared, `currentSound` set to its sound);
  * `playingConfirmed`: `isPlaying` is only true after some generation's
    start was confirmed, and `currentSound` names that generation's sound;
  * `freshNone`: generations above the live one have no attempt yet. -/
structure Inv (s : HookState) : Prop where
  audibleActive : ∀ g att, s.attempts g = some att → att.audio.paused = false →
    s.audioRef = some g
  activeLive : ∀ g, s.audioRef = some g → s.playId = g
  activeState : ∀ g, s.audioRef = some g →
    s.isPlaying = true ∧ s.isLoading = false ∧ s.pendingAudioRef = none ∧
    s.loadTimeout = none ∧
    ∃ att, s.attempts g = some att ∧ att.started = true ∧
      att.audio.paused = false ∧ s.currentSound = some att.sound
  playingConfirmed : s.isPlaying = true →
    ∃ g att, s.attempts g = some att ∧ att.started = true ∧
      s.currentSound = some att.sound
  freshNone : ∀ g, s.playId < g → s.attempts g = none

/-- Invariant of the supersession scenario `play A; play B` started from a
fresh controller: the live generation is B's (generation 2), A's element
(generation 1) is paused, generation 2 carries sound B, and the observable
state is either still unconfirmed (`isPlaying = false`, no current sound) or
confirmed for B. -/
structure SupInv (B : AmbientSound) (s : HookState) : Prop where
  pid : s.playId = 2
  att1paused : pausedOpt (s.attempts 1) = true
  att2sound : ∀ att, s.attempts 2 = some att → att.sound = B
  branch : (s.isPlaying = false ∧ s.currentSound = none) ∨
    (s.isPlaying = true ∧ s.currentSound = some B)
  others : ∀ g, g ≠ 1 → g ≠ 2 → s.attempts g = none

/-- Exclusivity: any two unpaused elements in the table coincide. -/
def AtMostOneAudible (s : HookState) : Prop :=
  ∀ g₁ att₁ g₂ att₂, s.attempts g₁ = some att₁ → att₁.audio.paused = false →
    s.attempts g₂ = some att₂ → att₂.audio.paused = false → g₁ = g₂

/-- Whether the `error` listener of generation `g` is still attached. -/
def errListening (s : HookState) (g : Nat) : Bool :=
  match s.attempts g with
  | some att => att.errorReg
  | none => false

end AmbientHook

namespace AmbientHook

/-- Decoding a digit character undoes encoding, for base-10 digits. -/
theorem charDigit_digitToChar {d : Nat} (h : d < 10) :
    charDigit (digitToChar d) = d := by
  interval_cases d <;> decide

/-- Encoded digits are digit characters. -/
theorem digitToChar_isDigit {d : Nat} (h : d < 10) :
    (digitToChar d).isDigit = true := by
  interval_cases d <;> decide

/-- Every character of a rendered natural number is a digit. -/
theorem natToChars_isDigit (n : Nat) : ∀ c ∈ natToChars n, c.isDigit = true := by
  intro c hc
  unfold natToChars at hc
  by_cases h0 : n = 0
  · simp [h0] at hc
    simp [hc]
  · simp only [h0, if_false, List.mem_map, List.mem_reverse] at hc
    obtain ⟨d, hd, rfl⟩ := hc
    exact digitToChar_isDigit (Nat.digits_lt_base (by norm_num) hd)

/-- A rendered natural number is never the empty character list. -/
theorem natToChars_ne_nil (n : Nat) : natToChars n ≠ [] := by
  unfold natToChars
  by_cases h0 : n = 0
  · simp [h0]
  · simp only [h0, if_false, ne_eq, List.map_eq_nil_iff, List.reverse_eq_nil_iff]
    simpa using Nat.digits_ne_nil_iff_ne_zero.mpr h0

/-- `takeWhile` walks through a prefix on which the predicate holds. -/
theorem takeWhile_append_all {p : Char → Bool} {l : List Char} (r : List Char)
    (h : ∀ x ∈ l, p x = true) : (l ++ r).takeWhile p = l ++ r.takeWhile p := by
  induction l with
  | nil => simp
  | cons x xs ih =>
    simp only [List.cons_append, List.takeWhile_cons]
    rw [h x (by simp)]
    simp [ih (fun y hy => h y (by simp [hy]))]

/-- `dropWhile` removes a prefix on which the predicate holds. -/
theorem dropWhile_append_all {p : Char → Bool} {l : List Char} (r : List Char)
    (h : ∀ x ∈ l, p x = true) : (l ++ r).dropWhile p = r.dropWhile p := by
  induction l with
  | nil => simp
  | cons x xs ih =>
    simp only [List.cons_append, List.dropWhile_cons]
    rw [h x (by simp)]
    simp [ih (fun y hy => h y (by simp [hy]))]

/-- The big-endian accumulator fold inverts `Nat.digits`. -/
theorem foldl_reverse_digits (l : List Nat) (a : Nat) :
    List.foldl (fun n d => 10 * n + d) a l.reverse = a * 10 ^ l.length + Nat.ofDigits 10 l := by
  induction l generalizing a with
  | nil => simp [Nat.ofDigits_nil]
  | cons x xs ih =>
    simp only [List.reverse_cons, List.foldl_append, List.foldl_cons, List.foldl_nil,
      Nat.ofDigits_cons, List.length_cons]
    rw [ih]
    ring

/-- Parsing back the digit characters of a rendered natural yields it. -/
theorem natFromDigitsBE_natToChars (n : Nat) :
    natFromDigitsBE ((natToChars n).map charDigit) = n := by
  unfold natToChars
  by_cases h0 : n = 0
  · subst h0; decide
  · simp only [h0, if_false, List.map_map]
    have hcongr : ((Nat.digits 10 n).reverse).map (charDigit ∘ digitToChar)
        = ((Nat.digits 10 n).reverse).map id := by
      apply List.map_congr_left
      intro d hd
      have : d < 10 := Nat.digits_lt_base (by norm_num) (List.mem_reverse.mp hd)
      simp [charDigit_digitToChar this]
    rw [hcongr, List.map_id]
    unfold natFromDigitsBE
    rw [foldl_reverse_digits]
    simpa using Nat.ofDigits_digits 10 n

/-- Round trip at the character level: parsing a rendered finite decimal
recovers it exactly. -/
theorem parseFloatChars_decToChars {d : DecNum} (h : d.Wf) :
    parseFloatChars (decToChars d) = JsNum.num d := by
  obtain ⟨u, frac⟩ := d
  have hdig : ∀ c ∈ natToChars u, c.isDigit = true := natToChars_isDigit u
  cases frac with
  | nil =>
    unfold decToChars parseFloatChars
    simp only [List.isEmpty_nil, if_true, List.append_nil]
    rw [List.takeWhile_eq_self_iff.mpr hdig]
    rw [show (natToChars u).dropWhile Char.isDigit
          = ([] : List Char).dropWhile Char.isDigit from by
        simpa using dropWhile_append_all (l := natToChars u) [] hdig]
    simp only [List.dropWhile_nil]
    rw [if_neg]
    · simp [natFromDigitsBE_natToChars]
    · simp [List.isEmpty_iff, natToChars_ne_nil u]
  | cons f0 fs =>
    have hfrac : ∀ x ∈ (f0 :: fs : List Nat), x < 10 := fun x hx => h x hx
    have hfdig : ∀ c ∈ (f0 :: fs).map digitToChar, c.isDigit = true := by
      intro c hc
      obtain ⟨x, hx, rfl⟩ := List.mem_map.mp hc
      exact digitToChar_isDigit (hfrac x hx)
    unfold decToChars parseFloatChars
    simp only [List.isEmpty_cons, if_false]
    rw [takeWhile_append_all _ hdig, dropWhile_append_all _ hdig]
    have hdot : Char.isDigit '.' = false := by decide
    simp only [List.takeWhile_cons, hdot, Bool.false_eq_true, if_false,
      List.dropWhile_cons, List.append_nil]
    rw [List.takeWhile_eq_self_iff.mpr hfdig]
    rw [if_neg]
    · rw [natFromDigitsBE_natToChars]
      have : ((f0 :: fs).map digitToChar).map charDigit = (f0 :: fs : List Nat) := by
        rw [List.map_map]
        have := List.map_congr_left (l := (f0 :: fs : List Nat))
          (f := charDigit ∘ digitToChar) (g := id)
          (fun x hx => by simp [charDigit_digitToChar (hfrac x hx)])
        rw [this, List.map_id]
      rw [this]
    · simp [List.isEmpty_iff, natToChars_ne_nil u]

/-- Round trip at the string level. -/
theorem parseFloatJs_decToString {d : DecNum} (h : d.Wf) :
    parseFloatJs (decToString d) = JsNum.num d :=
  parseFloatChars_decToChars h

/-- A rendered finite decimal is never the empty string. -/
theorem decToString_ne_empty (d : DecNum) : decToString d ≠ "" := by
  intro hemp
  have : decToChars d = [] := by
    have := congrArg String.data hemp
    simpa [decToString] using this
  unfold decToChars at this
  exact natToChars_ne_nil d.units (by
    cases hap : natToChars d.units with
    | nil => rfl
    | cons c cs => rw [hap] at this; simp at this)

end AmbientHook

namespace AmbientHook

/-- `setAttempt` only rewrites the attempt table. -/
@[simp] theorem setAttempt_isPlaying (g att s) : (setAttempt g att s).isPlaying = s.isPlaying := rfl

@[simp] theorem setAttempt_currentSound (g att s) : (setAttempt g att s).currentSound = s.currentSound := rfl

@[simp] theorem setAttempt_isLoading (g att s) : (setAttempt g att s).isLoading = s.isLoading := rfl

@[simp] theorem setAttempt_volume (g att s) : (setAttempt g att s).volume = s.volume := rfl

@[simp] theorem setAttempt_playId (g att s) : (setAttempt g att s).playId = s.playId := rfl

@[simp] theorem setAttempt_audioRef (g att s) : (setAttempt g att s).audioRef = s.audioRef := rfl

@[simp] theorem setAttempt_pendingAudioRef (g att s) : (setAttempt g att s).pendingAudioRef = s.pendingAudioRef := rfl

@[simp] theorem setAttempt_loadTimeout (g att s) : (setAttempt g att s).loadTimeout = s.loadTimeout := rfl

@[simp] theorem setAttempt_pendingPlays (g att s) : (setAttempt g att s).pendingPlays = s.pendingPlays := rfl

@[simp] theorem setAttempt_store (g att s) : (setAttempt g att s).store = s.store := rfl

@[simp] theorem setAttempt_errLog (g att s) : (setAttempt g att s).errLog = s.errLog := rfl

theorem setAttempt_attempts (g att s g') :
    (setAttempt g att s).attempts g' = if g' = g then some att else s.attempts g' := rfl

/-- `updateAudio` only rewrites the attempt table. -/
@[simp] theorem updateAudio_isPlaying (g f s) : (updateAudio g f s).isPlaying = s.isPlaying := rfl

@[simp] theorem updateAudio_currentSound (g f s) : (updateAudio g f s).currentSound = s.currentSound := rfl

@[simp] theorem updateAudio_isLoading (g f s) : (updateAudio g f s).isLoading = s.isLoading := rfl

@[simp] theorem updateAudio_volume (g f s) : (updateAudio g f s).volume = s.volume := rfl

@[simp] theorem updateAudio_playId (g f s) : (updateAudio g f s).playId = s.playId := rfl

@[simp] theorem updateAudio_audioRef (g f s) : (updateAudio g f s).audioRef = s.audioRef := rfl

@[simp] theorem updateAudio_pendingAudioRef (g f s) : (updateAudio g f s).pendingAudioRef = s.pendingAudioRef := rfl

@[simp] theorem updateAudio_loadTimeout (g f s) : (updateAudio g f s).loadTimeout = s.loadTimeout := rfl

@[simp] theorem updateAudio_pendingPlays (g f s) : (updateAudio g f s).pendingPlays = s.pendingPlays := rfl

@[simp] theorem updateAudio_store (g f s) : (updateAudio g f s).store = s.store := rfl

@[simp] theorem updateAudio_errLog (g f s) : (updateAudio g f s).errLog = s.errLog := rfl

theorem updateAudio_attempts (g f s g') :
    (updateAudio g f s).attempts g'
      = if g' = g then (s.attempts g').map (fun att => { att with audio := f att.audio })
        else s.attempts g' := rfl

/-- `releaseRef` only rewrites the attempt table. -/
@[simp] theorem releaseRef_isPlaying (og rt s) : (releaseRef og rt s).isPlaying = s.isPlaying := by
  cases og <;> rfl

@[simp] theorem releaseRef_currentSound (og rt s) : (releaseRef og rt s).currentSound = s.currentSound := by
  cases og <;> rfl

@[simp] theorem releaseRef_isLoading (og rt s) : (releaseRef og rt s).isLoading = s.isLoading := by
  cases og <;> rfl

@[simp] theorem releaseRef_volume (og rt s) : (releaseRef og rt s).volume = s.volume := by
  cases og <;> rfl

@[simp] theorem releaseRef_playId (og rt s) : (releaseRef og rt s).playId = s.playId := by
  cases og <;> rfl

@[simp] theorem releaseRef_audioRef (og rt s) : (releaseRef og rt s).audioRef = s.audioRef := by
  cases og <;> rfl

@[simp] theorem releaseRef_pendingAudioRef (og rt s) : (releaseRef og rt s).pendingAudioRef = s.pendingAudioRef := by
  cases og <;> rfl

@[simp] theorem releaseRef_loadTimeout (og rt s) : (releaseRef og rt s).loadTimeout = s.loadTimeout := by
  cases og <;> rfl

@[simp] theorem releaseRef_pendingPlays (og rt s) : (releaseRef og rt s).pendingPlays = s.pendingPlays := by
  cases og <;> rfl

@[simp] theorem releaseRef_store (og rt s) : (releaseRef og rt s).store = s.store := by
  cases og <;> rfl

@[simp] theorem releaseRef_errLog (og rt s) : (releaseRef og rt s).errLog = s.errLog := by
  cases og <;> rfl

/-- `startPlayback` only (possibly) appends to the promise queue. -/
@[simp] theorem startPlayback_isPlaying (g s) : (startPlayback g s).isPlaying = s.isPlaying := by
  unfold startPlayback; cases s.attempts g <;> simp only [] <;> (try split) <;> (try split) <;> rfl

@[simp] theorem startPlayback_currentSound (g s) : (startPlayback g s).currentSound = s.currentSound := by
  unfold startPlayback; cases s.attempts g <;> simp only [] <;> (try split) <;> (try split) <;> rfl

@[simp] theorem startPlayback_isLoading (g s) : (startPlayback g s).isLoading = s.isLoading := by
  unfold startPlayback; cases s.attempts g <;> simp only [] <;> (try split) <;> (try split) <;> rfl

@[simp] theorem startPlayback_volume (g s) : (startPlayback g s).volume = s.volume := by
  unfold startPlayback; cases s.attempts g <;> simp only [] <;> (try split) <;> (try split) <;> rfl

@[simp] theorem startPlayback_playId (g s) : (startPlayback g s).playId = s.playId := by
  unfold startPlayback; cases s.attempts g <;> simp only [] <;> (try split) <;> (try split) <;> rfl

@[simp] theorem startPlayback_audioRef (g s) : (startPlayback g s).audioRef = s.audioRef := by
  unfold startPlayback; cases s.attempts g <;> simp only [] <;> (try split) <;> (try split) <;> rfl

@[simp] theorem startPlayback_pendingAudioRef (g s) : (startPlayback g s).pendingAudioRef = s.pendingAudioRef := by
  unfold startPlayback; cases s.attempts g <;> simp only [] <;> (try split) <;> (try split) <;> rfl

@[simp] theorem startPlayback_loadTimeout (g s) : (startPlayback g s).loadTimeout = s.loadTimeout := by
  unfold startPlayback; cases s.attempts g <;> simp only [] <;> (try split) <;> (try split) <;> rfl

@[simp] theorem startPlayback_store (g s) : (startPlayback g s).store = s.store := by
  unfold startPlayback; cases s.attempts g <;> simp only [] <;> (try split) <;> (try split) <;> rfl

@[simp] theorem startPlayback_errLog (g s) : (startPlayback g s).errLog = s.errLog := by
  unfold startPlayback; cases s.attempts g <;> simp only [] <;> (try split) <;> (try split) <;> rfl

@[simp] theorem startPlayback_attempts (g s) : (startPlayback g s).attempts = s.attempts := by
  unfold startPlayback; cases s.attempts g <;> simp only [] <;> (try split) <;> (try split) <;> rfl

end AmbientHook

namespace AmbientHook

theorem Shadow.refl (o : Option Attempt) : Shadow o o := Or.inl rfl

theorem Shadow.trans {o o' o'' : Option Attempt}
    (h1 : Shadow o o') (h2 : Shadow o' o'') : Shadow o o'' := by
  rcases h2 with h2 | ⟨b, c, hb, hc, e1, e2, e3, e4, e5⟩
  · rwa [h2]
  · rcases h1 with h1 | ⟨a, b', hb1, hb2, f1, f2, f3, f4, f5⟩
    · rw [h1] at hb
      exact Or.inr ⟨b, c, hb, hc, e1, e2, e3, e4, e5⟩
    · rw [hb] at hb2
      cases Option.some.inj hb2
      exact Or.inr ⟨a, c, hb1, hc, e1.trans f1, e2.trans f2, e3.trans f3, e4.trans f4, e5⟩

/-- An audio-only update that ends paused is a `Shadow`. -/
theorem updateAudio_shadow (g : Nat) (f : AudioElem → AudioElem) (s : HookState) (g' : Nat)
    (hf : ∀ a, (f a).paused = true) :
    Shadow (s.attempts g') ((updateAudio g f s).attempts g') := by
  rw [updateAudio_attempts]
  by_cases hg : g' = g
  · rw [if_pos hg]
    cases h : s.attempts g' with
    | none => exact Or.inl rfl
    | some att =>
      exact Or.inr ⟨att, _, rfl, rfl, rfl, rfl, rfl, rfl, hf att.audio⟩
  · rw [if_neg hg]
    exact Shadow.refl _

/-- Releasing a ref is a `Shadow` on every table entry. -/
theorem releaseRef_shadow (og : Option Nat) (rt : Bool) (s : HookState) (g' : Nat) :
    Shadow (s.attempts g') ((releaseRef og rt s).attempts g') := by
  cases og with
  | none => exact Shadow.refl _
  | some g => exact updateAudio_shadow g _ s g' (fun a => rfl)

end AmbientHook

namespace AmbientHook

@[simp] theorem stopSound_isPlaying (s) : (stopSound s).isPlaying = false := rfl

@[simp] theorem stopSound_currentSound (s) : (stopSound s).currentSound = none := rfl

@[simp] theorem stopSound_isLoading (s) : (stopSound s).isLoading = false := rfl

@[simp] theorem stopSound_audioRef (s) : (stopSound s).audioRef = none := rfl

@[simp] theorem stopSound_pendingAudioRef (s) : (stopSound s).pendingAudioRef = none := by
  simp [stopSound]

@[simp] theorem stopSound_loadTimeout (s) : (stopSound s).loadTimeout = none := by
  simp [stopSound]

@[simp] theorem stopSound_playId (s) : (stopSound s).playId = s.playId + 1 := by
  simp [stopSound]

@[simp] theorem stopSound_volume (s) : (stopSound s).volume = s.volume := by
  simp [stopSound]

@[simp] theorem stopSound_store (s) : (stopSound s).store = s.store := by
  simp [stopSound]

@[simp] theorem stopSound_errLog (s) : (stopSound s).errLog = s.errLog := by
  simp [stopSound]

@[simp] theorem stopSound_pendingPlays (s) : (stopSound s).pendingPlays = s.pendingPlays := by
  simp [stopSound]

/-- `releaseRef` output attempts depend only on input attempts. -/
theorem releaseRef_attempts_eq_of (og : Option Nat) (rt : Bool) {X Y : HookState}
    (h : X.attempts = Y.attempts) :
    (releaseRef og rt X).attempts = (releaseRef og rt Y).attempts := by
  cases og with
  | none => exact h
  | some g =>
    funext g'
    show (updateAudio g (pauseClear rt) X).attempts g' = (updateAudio g (pauseClear rt) Y).attempts g'
    rw [updateAudio_attempts, updateAudio_attempts, h]

/-- `setAttempt` output attempts depend only on input attempts. -/
theorem setAttempt_attempts_eq_of (g : Nat) (att : Attempt) {X Y : HookState}
    (h : X.attempts = Y.attempts) :
    (setAttempt g att X).attempts = (setAttempt g att Y).attempts := by
  funext g'
  rw [setAttempt_attempts, setAttempt_attempts, h]

/-- The attempt table of `stopSound` is a double release. -/
theorem stopSound_attempts_eq (s : HookState) :
    (stopSound s).attempts
      = (releaseRef s.audioRef true (releaseRef s.pendingAudioRef true s)).attempts :=
  releaseRef_attempts_eq_of s.audioRef true
    (releaseRef_attempts_eq_of s.pendingAudioRef true rfl)

/-- `stopSound` only pauses elements: each table entry is shadowed. -/
theorem stopSound_shadow (s : HookState) (g' : Nat) :
    Shadow (s.attempts g') ((stopSound s).attempts g') := by
  rw [congrFun (stopSound_attempts_eq s) g']
  exact Shadow.trans (releaseRef_shadow s.pendingAudioRef true s g')
    (releaseRef_shadow s.audioRef true _ g')

@[simp] theorem playSoundPrep_playId (snd s) : (playSoundPrep snd s).playId = s.playId + 1 := by
  simp [playSoundPrep]

@[simp] theorem playSoundPrep_isLoading (snd s) : (playSoundPrep snd s).isLoading = true := by
  simp [playSoundPrep]

@[simp] theorem playSoundPrep_isPlaying (snd s) : (playSoundPrep snd s).isPlaying = s.isPlaying := by
  simp [playSoundPrep]

@[simp] theorem playSoundPrep_currentSound (snd s) :
    (playSoundPrep snd s).currentSound = s.currentSound := by
  simp [playSoundPrep]

@[simp] theorem playSoundPrep_audioRef (snd s) : (playSoundPrep snd s).audioRef = none := by
  simp [playSoundPrep]

@[simp] theorem playSoundPrep_pendingAudioRef (snd s) :
    (playSoundPrep snd s).pendingAudioRef = some (s.playId + 1) := by
  simp [playSoundPrep]

@[simp] theorem playSoundPrep_loadTimeout (snd s) : (playSoundPrep snd s).loadTimeout = none := by
  simp [playSoundPrep]

@[simp] theorem playSoundPrep_volume (snd s) : (playSoundPrep snd s).volume = s.volume := by
  simp [playSoundPrep]

@[simp] theorem playSoundPrep_store (snd s) : (playSoundPrep snd s).store = s.store := by
  simp [playSoundPrep]

@[simp] theorem playSoundPrep_errLog (snd s) : (playSoundPrep snd s).errLog = s.errLog := by
  simp [playSoundPrep]

@[simp] theorem playSoundPrep_pendingPlays (snd s) :
    (playSoundPrep snd s).pendingPlays = s.pendingPlays := by
  simp [playSoundPrep]

/-- The attempt table of the preparation step: the fresh record at the new
generation, a double release everywhere else. -/
theorem playSoundPrep_attempts_eq (snd s) :
    (playSoundPrep snd s).attempts
      = (setAttempt (s.playId + 1) (newAttempt snd s.volume)
          (releaseRef s.audioRef false (releaseRef s.pendingAudioRef false s))).attempts :=
  setAttempt_attempts_eq_of (s.playId + 1) (newAttempt snd s.volume)
    (releaseRef_attempts_eq_of s.audioRef false
      (releaseRef_attempts_eq_of s.pendingAudioRef false rfl))

@[simp] theorem playSound_playId (snd s) : (playSound snd s).playId = s.playId + 1 := by
  simp [playSound]

@[simp] theorem playSound_isLoading (snd s) : (playSound snd s).isLoading = true := by
  simp [playSound]

@[simp] theorem playSound_isPlaying (snd s) : (playSound snd s).isPlaying = s.isPlaying := by
  simp [playSound]

@[simp] theorem playSound_currentSound (snd s) : (playSound snd s).currentSound = s.currentSound := by
  simp [playSound]

@[simp] theorem playSound_audioRef (snd s) : (playSound snd s).audioRef = none := by
  simp [playSound]

@[simp] theorem playSound_pendingAudioRef (snd s) :
    (playSound snd s).pendingAudioRef = some (s.playId + 1) := by
  simp [playSound]

@[simp] theorem playSound_loadTimeout (snd s) :
    (playSound snd s).loadTimeout = some (s.playId + 1) := by
  simp [playSound]

@[simp] theorem playSound_volume (snd s) : (playSound snd s).volume = s.volume := by
  simp [playSound]

@[simp] theorem playSound_store (snd s) : (playSound snd s).store = s.store := by
  simp [playSound]

@[simp] theorem playSound_errLog (snd s) : (playSound snd s).errLog = s.errLog := by
  simp [playSound]

/-- The attempt table of `playSound`, pointwise. -/
theorem playSound_attempts (snd s g') :
    (playSound snd s).attempts g'
      = if g' = s.playId + 1 then some (newAttempt snd s.volume)
        else (releaseRef s.audioRef false (releaseRef s.pendingAudioRef false s)).attempts g' := by
  have h0 : (playSound snd s).attempts = (playSoundPrep snd s).attempts := by
    show (startPlayback (s.playId + 1) (playSoundPrep snd s)).attempts = _
    rw [startPlayback_attempts]
  rw [congrFun h0 g', congrFun (playSoundPrep_attempts_eq snd s) g', setAttempt_attempts]

/-- The fresh generation's attempt record after `playSound`. -/
theorem playSound_attempts_new (snd s) :
    (playSound snd s).attempts (s.playId + 1) = some (newAttempt snd s.volume) := by
  rw [playSound_attempts, if_pos rfl]

/-- Every older table entry is shadowed by `playSound`. -/
theorem playSound_shadow (snd s) (g' : Nat) (h : g' ≠ s.playId + 1) :
    Shadow (s.attempts g') ((playSound snd s).attempts g') := by
  rw [playSound_attempts, if_neg h]
  exact Shadow.trans (releaseRef_shadow s.pendingAudioRef false s g')
    (releaseRef_shadow s.audioRef false _ g')

end AmbientHook

namespace AmbientHook

@[simp] theorem changeVolume_isPlaying (v s) : (changeVolume v s).isPlaying = s.isPlaying := by
  cases h : s.audioRef <;> simp [changeVolume, h]

@[simp] theorem changeVolume_currentSound (v s) : (changeVolume v s).currentSound = s.currentSound := by
  cases h : s.audioRef <;> simp [changeVolume, h]

@[simp] theorem changeVolume_isLoading (v s) : (changeVolume v s).isLoading = s.isLoading := by
  cases h : s.audioRef <;> simp [changeVolume, h]

@[simp] theorem changeVolume_playId (v s) : (changeVolume v s).playId = s.playId := by
  cases h : s.audioRef <;> simp [changeVolume, h]

@[simp] theorem changeVolume_audioRef (v s) : (changeVolume v s).audioRef = s.audioRef := by
  cases h : s.audioRef <;> simp [changeVolume, h]

@[simp] theorem changeVolume_pendingAudioRef (v s) :
    (changeVolume v s).pendingAudioRef = s.pendingAudioRef := by
  cases h : s.audioRef <;> simp [changeVolume, h]

@[simp] theorem changeVolume_loadTimeout (v s) : (changeVolume v s).loadTimeout = s.loadTimeout := by
  cases h : s.audioRef <;> simp [changeVolume, h]

@[simp] theorem changeVolume_pendingPlays (v s) :
    (changeVolume v s).pendingPlays = s.pendingPlays := by
  cases h : s.audioRef <;> simp [changeVolume, h]

@[simp] theorem changeVolume_errLog (v s) : (changeVolume v s).errLog = s.errLog := by
  cases h : s.audioRef <;> simp [changeVolume, h]

@[simp] theorem changeVolume_volume (v s) : (changeVolume v s).volume = v := by
  cases h : s.audioRef <;> simp [changeVolume, h]

@[simp] theorem changeVolume_store (v s) : (changeVolume v s).store = some (jsToString v) := by
  cases h : s.audioRef <;> simp [changeVolume, h]

/-- The attempt table of `changeVolume`: the active element's volume is
updated, nothing else. -/
theorem changeVolume_attempts (v s g') :
    (changeVolume v s).attempts g'
      = if s.audioRef = some g'
        then (s.attempts g').map (fun att => { att with audio := { att.audio with volume := v } })
        else s.attempts g' := by
  cases h : s.audioRef with
  | none => simp [changeVolume, h]
  | some g =>
    by_cases hg : g' = g
    · subst hg
      simp [changeVolume, h, updateAudio_attempts]
    · simp [changeVolume, h, updateAudio_attempts, hg, Ne.symm hg]

/-- Case analysis of `canplayFire`. -/
theorem canplayFire_cases (g : Nat) (s : HookState) :
    canplayFire g s = s ∨
    ∃ att, s.attempts g = some att ∧ att.canplayReg = true ∧
      canplayFire g s = startPlayback g (setAttempt g { att with canplayReg := false } s) := by
  cases h : s.attempts g with
  | none => exact Or.inl (by simp [canplayFire, h])
  | some att =>
    by_cases hr : att.canplayReg
    · exact Or.inr ⟨att, rfl, hr, by simp [canplayFire, h, hr]⟩
    · exact Or.inl (by simp [canplayFire, h, hr])

/-- Case analysis of `errorFire`. -/
theorem errorFire_cases (g : Nat) (s : HookState) :
    errorFire g s = s ∨
    ∃ att, s.attempts g = some att ∧ att.errorReg = true ∧
      ((s.playId ≠ g ∧ errorFire g s = setAttempt g { att with errorReg := false } s) ∨
       (s.playId = g ∧ errorFire g s
          = { setAttempt g { att with errorReg := false } s with
              isLoading := false, errLog := s.errLog + 1 })) := by
  cases h : s.attempts g with
  | none => exact Or.inl (by simp [errorFire, h])
  | some att =>
    by_cases hr : att.errorReg
    · refine Or.inr ⟨att, rfl, hr, ?_⟩
      by_cases hp : s.playId = g
      · exact Or.inr ⟨hp, by simp [errorFire, h, hr, hp]⟩
      · exact Or.inl ⟨hp, by simp [errorFire, h, hr, hp]⟩
    · exact Or.inl (by simp [errorFire, h, hr])

/-- Case analysis of `resolveFailStep`. -/
theorem resolveFailStep_cases (g : Nat) (s : HookState) :
    resolveFailStep g s = s ∨
    resolveFailStep g s = { s with pendingPlays := s.pendingPlays.erase g } := by
  by_cases h : g ∈ s.pendingPlays
  · exact Or.inr (by simp [resolveFailStep, h])
  · exact Or.inl (by simp [resolveFailStep, h])

/-- Case analysis of `timerFireStep`. -/
theorem timerFireStep_cases (s : HookState) :
    timerFireStep s = s ∨
    ∃ g, s.loadTimeout = some g ∧
      timerFireStep s = startPlayback g { s with loadTimeout := none } := by
  cases h : s.loadTimeout with
  | none => exact Or.inl (by simp [timerFireStep, h])
  | some g => exact Or.inr ⟨g, rfl, by simp [timerFireStep, h]⟩

/-- Case analysis of `resolveOkStep`. -/
theorem resolveOkStep_cases (g : Nat) (s : HookState) :
    resolveOkStep g s = s ∨
    (s.pendingPlays.contains g = true ∧ s.attempts g = none ∧
      resolveOkStep g s = { s with pendingPlays := s.pendingPlays.erase g }) ∨
    (∃ att, s.pendingPlays.contains g = true ∧ s.attempts g = some att ∧ s.playId ≠ g ∧
      resolveOkStep g s = updateAudio g (fun a => { a with paused := true })
        { s with pendingPlays := s.pendingPlays.erase g }) ∨
    (∃ att, s.pendingPlays.contains g = true ∧ s.attempts g = some att ∧ s.playId = g ∧
      resolveOkStep g s
        = { setAttempt g { att with started := true, audio := { att.audio with paused := false } }
              { s with pendingPlays := s.pendingPlays.erase g } with
            audioRef := some g, pendingAudioRef := none,
            currentSound := some att.sound, isPlaying := true,
            isLoading := false, loadTimeout := none }) := by
  by_cases hc : g ∈ s.pendingPlays
  · cases h : s.attempts g with
    | none => exact Or.inr (Or.inl ⟨by simpa using hc, rfl, by simp [resolveOkStep, hc, h]⟩)
    | some att =>
      by_cases hp : s.playId = g
      · exact Or.inr (Or.inr (Or.inr ⟨att, by simpa using hc, rfl, hp,
          by simp [resolveOkStep, hc, h, hp]⟩))
      · exact Or.inr (Or.inr (Or.inl ⟨att, by simpa using hc, rfl, hp,
          by simp [resolveOkStep, hc, h, hp]⟩))
  · exact Or.inl (by simp [resolveOkStep, hc])

end AmbientHook

namespace AmbientHook

/-- Transfer of the invariant along a step that does not touch the fields
the invariant reads (`isLoading` may also be reset to false and the fallback
timer may be cleared). -/
theorem Inv_of_fields {s t : HookState} (hI : Inv s)
    (h1 : t.isPlaying = s.isPlaying) (h2 : t.currentSound = s.currentSound)
    (h3 : t.isLoading = s.isLoading ∨ t.isLoading = false)
    (h4 : t.playId = s.playId)
    (h5 : t.audioRef = s.audioRef) (h6 : t.pendingAudioRef = s.pendingAudioRef)
    (h7 : t.loadTimeout = s.loadTimeout ∨ t.loadTimeout = none)
    (h8 : t.attempts = s.attempts) : Inv t := by
  constructor
  · intro g att h hp
    rw [h8] at h
    rw [h5]
    exact hI.audibleActive g att h hp
  · intro g h
    rw [h5] at h
    rw [h4]
    exact hI.activeLive g h
  · intro g h
    rw [h5] at h
    obtain ⟨p1, p2, p3, p4, att, ha, hstart, hpaus, hcur⟩ := hI.activeState g h
    refine ⟨by rw [h1, p1], ?_, by rw [h6, p3], ?_, att, by rw [h8]; exact ha,
      hstart, hpaus, by rw [h2, hcur]⟩
    · rcases h3 with h3 | h3
      · rw [h3, p2]
      · exact h3
    · rcases h7 with h7 | h7
      · rw [h7, p4]
      · exact h7
  · intro h
    rw [h1] at h
    obtain ⟨g, att, ha, hstart, hcur⟩ := hI.playingConfirmed h
    exact ⟨g, att, by rw [h8]; exact ha, hstart, by rw [h2]; exact hcur⟩
  · intro g hg
    rw [h4] at hg
    rw [h8]
    exact hI.freshNone g hg

/-- `startPlayback` preserves the invariant. -/
theorem Inv_startPlayback (g : Nat) {s : HookState} (hI : Inv s) :
    Inv (startPlayback g s) :=
  Inv_of_fields hI (by simp) (by simp) (Or.inl (by simp)) (by simp) (by simp)
    (by simp) (Or.inl (by simp)) (by simp)

/-- Replacing an attempt by one with the same sound, `started` flag and
element preserves the invariant. -/
theorem Inv_setAttempt_preserve {s : HookState} (hI : Inv s) (g : Nat) (att att2 : Attempt)
    (hatt : s.attempts g = some att)
    (hsound : att2.sound = att.sound) (hstart : att2.started = att.started)
    (haud : att2.audio = att.audio) : Inv (setAttempt g att2 s) := by
  constructor
  · intro g' a h hp
    rw [setAttempt_audioRef]
    rw [setAttempt_attempts] at h
    by_cases hg : g' = g
    · rw [if_pos hg] at h
      obtain rfl := Option.some.inj h
      rw [haud] at hp
      rw [hg]
      exact hI.audibleActive g att hatt hp
    · rw [if_neg hg] at h
      exact hI.audibleActive g' a h hp
  · intro g' h
    rw [setAttempt_audioRef] at h
    rw [setAttempt_playId]
    exact hI.activeLive g' h
  · intro g' h
    rw [setAttempt_audioRef] at h
    obtain ⟨p1, p2, p3, p4, b, hb, hbs, hbp, hbc⟩ := hI.activeState g' h
    refine ⟨by simpa using p1, by simpa using p2, by simpa using p3, by simpa using p4, ?_⟩
    by_cases hg : g' = g
    · subst hg
      rw [hatt] at hb
      obtain rfl := Option.some.inj hb
      refine ⟨att2, by rw [setAttempt_attempts, if_pos rfl], by rw [hstart]; exact hbs,
        by rw [haud]; exact hbp, ?_⟩
      rw [setAttempt_currentSound, hsound]
      exact hbc
    · exact ⟨b, by rw [setAttempt_attempts, if_neg hg]; exact hb, hbs, hbp,
        by rw [setAttempt_currentSound]; exact hbc⟩
  · intro h
    rw [setAttempt_isPlaying] at h
    obtain ⟨g', b, hb, hbs, hbc⟩ := hI.playingConfirmed h
    by_cases hg : g' = g
    · subst hg
      rw [hatt] at hb
      obtain rfl := Option.some.inj hb
      refine ⟨g', att2, by rw [setAttempt_attempts, if_pos rfl], by rw [hstart]; exact hbs, ?_⟩
      rw [setAttempt_currentSound, hsound]
      exact hbc
    · exact ⟨g', b, by rw [setAttempt_attempts, if_neg hg]; exact hb, hbs,
        by rw [setAttempt_currentSound]; exact hbc⟩
  · intro g' hg'
    rw [setAttempt_playId] at hg'
    rw [setAttempt_attempts]
    by_cases hg : g' = g
    · subst hg
      rw [hI.freshNone g' hg'] at hatt
      cases hatt
    · rw [if_neg hg]
      exact hI.freshNone g' hg'

/-- After `stopSound` every element in the table is paused. -/
theorem stopSound_paused {s : HookState} (hI : Inv s) (g : Nat) (att : Attempt)
    (hatt : (stopSound s).attempts g = some att) : att.audio.paused = true := by
  rcases stopSound_shadow s g with heq | ⟨a, a', ha, ha', e1, e2, e3, e4, hp⟩
  · by_contra hpf
    simp only [Bool.not_eq_true] at hpf
    have hSome : s.attempts g = some att := by rw [← heq]; exact hatt
    have href := hI.audibleActive g att hSome hpf
    have hcomp : (stopSound s).attempts g
        = ((releaseRef s.pendingAudioRef true s).attempts g).map
            (fun a => { a with audio := pauseClear true a.audio }) := by
      rw [congrFun (stopSound_attempts_eq s) g, href]
      show (updateAudio g (pauseClear true) (releaseRef s.pendingAudioRef true s)).attempts g = _
      rw [updateAudio_attempts, if_pos rfl]
    rw [hcomp] at hatt
    rcases hx : (releaseRef s.pendingAudioRef true s).attempts g with _ | b
    · rw [hx] at hatt
      cases hatt
    · rw [hx] at hatt
      obtain rfl : ({ b with audio := pauseClear true b.audio } : Attempt) = att :=
        Option.some.inj hatt
      simp [pauseClear] at hpf
  · obtain rfl := Option.some.inj (ha'.symm.trans hatt)
    exact hp

/-- `stopSound` preserves the invariant. -/
theorem Inv_stop {s : HookState} (hI : Inv s) : Inv (stopSound s) := by
  constructor
  · intro g att h hp
    rw [stopSound_paused hI g att h] at hp
    exact Bool.noConfusion hp
  · intro g h
    rw [stopSound_audioRef] at h
    cases h
  · intro g h
    rw [stopSound_audioRef] at h
    cases h
  · intro h
    rw [stopSound_isPlaying] at h
    exact Bool.noConfusion h
  · intro g hg
    rw [stopSound_playId] at hg
    rcases stopSound_shadow s g with heq | ⟨a, a', ha, ha', e1, e2, e3, e4, hp⟩
    · rw [heq]
      exact hI.freshNone g (by omega)
    · rw [hI.freshNone g (by omega)] at ha
      cases ha

/-- After `playSound` every element in the table is paused (the fresh one
has not started yet, the old ones were released). -/
theorem playSound_paused {snd : AmbientSound} {s : HookState} (hI : Inv s) (g : Nat)
    (att : Attempt) (hatt : (playSound snd s).attempts g = some att) :
    att.audio.paused = true := by
  by_cases hg : g = s.playId + 1
  · subst hg
    rw [playSound_attempts_new] at hatt
    obtain rfl := Option.some.inj hatt
    rfl
  · rcases playSound_shadow snd s g hg with heq | ⟨a, a', ha, ha', e1, e2, e3, e4, hp⟩
    · by_contra hpf
      simp only [Bool.not_eq_true] at hpf
      have hSome : s.attempts g = some att := by rw [← heq]; exact hatt
      have href := hI.audibleActive g att hSome hpf
      have hcomp : (playSound snd s).attempts g
          = ((releaseRef s.pendingAudioRef false s).attempts g).map
              (fun a => { a with audio := pauseClear false a.audio }) := by
        rw [playSound_attempts, if_neg hg, href]
        show (updateAudio g (pauseClear false) (releaseRef s.pendingAudioRef false s)).attempts g = _
        rw [updateAudio_attempts, if_pos rfl]
      rw [hcomp] at hatt
      rcases hx : (releaseRef s.pendingAudioRef false s).attempts g with _ | b
      · rw [hx] at hatt
        cases hatt
      · rw [hx] at hatt
        obtain rfl : ({ b with audio := pauseClear false b.audio } : Attempt) = att :=
          Option.some.inj hatt
        simp [pauseClear] at hpf
    · obtain rfl := Option.some.inj (ha'.symm.trans hatt)
      exact hp

/-- `playSound` preserves the invariant. -/
theorem Inv_play (snd : AmbientSound) {s : HookState} (hI : Inv s) :
    Inv (playSound snd s) := by
  constructor
  · intro g att h hp
    rw [playSound_paused hI g att h] at hp
    exact Bool.noConfusion hp
  · intro g h
    rw [playSound_audioRef] at h
    cases h
  · intro g h
    rw [playSound_audioRef] at h
    cases h
  · intro h
    rw [playSound_isPlaying] at h
    obtain ⟨g0, b, hb, hbs, hbc⟩ := hI.playingConfirmed h
    have hne : g0 ≠ s.playId + 1 := by
      intro hEq
      rw [hI.freshNone g0 (by omega)] at hb
      cases hb
    rcases playSound_shadow snd s g0 hne with heq | ⟨a, a', ha, ha', e1, e2, e3, e4, hp⟩
    · exact ⟨g0, b, by rw [heq]; exact hb, hbs, by rw [playSound_currentSound]; exact hbc⟩
    · obtain rfl := Option.some.inj (ha.symm.trans hb)
      refine ⟨g0, a', ha', by rw [e2]; exact hbs, ?_⟩
      rw [playSound_currentSound, hbc, e1]
  · intro g hg
    rw [playSound_playId] at hg
    have hne : g ≠ s.playId + 1 := by omega
    rcases playSound_shadow snd s g hne with heq | ⟨a, a', ha, ha', e1, e2, e3, e4, hp⟩
    · rw [heq]
      exact hI.freshNone g (by omega)
    · rw [hI.freshNone g (by omega)] at ha
      cases ha

end AmbientHook

namespace AmbientHook

/-- `changeVolume` preserves the invariant. -/
theorem Inv_changeVolume (v : JsNum) {s : HookState} (hI : Inv s) :
    Inv (changeVolume v s) := by
  constructor
  · intro g a h hp
    rw [changeVolume_audioRef]
    rw [changeVolume_attempts] at h
    by_cases hg : s.audioRef = some g
    · exact hg
    · rw [if_neg hg] at h
      exact hI.audibleActive g a h hp
  · intro g h
    rw [changeVolume_audioRef] at h
    rw [changeVolume_playId]
    exact hI.activeLive g h
  · intro g h
    rw [changeVolume_audioRef] at h
    obtain ⟨p1, p2, p3, p4, b, hb, hbs, hbp, hbc⟩ := hI.activeState g h
    refine ⟨by simpa using p1, by simpa using p2, by simpa using p3, by simpa using p4, ?_⟩
    refine ⟨{ b with audio := { b.audio with volume := v } }, ?_, hbs, hbp, ?_⟩
    · rw [changeVolume_attempts, if_pos h, hb]
      rfl
    · rw [changeVolume_currentSound, hbc]
  · intro h
    rw [changeVolume_isPlaying] at h
    obtain ⟨g, b, hb, hbs, hbc⟩ := hI.playingConfirmed h
    by_cases hg : s.audioRef = some g
    · exact ⟨g, { b with audio := { b.audio with volume := v } },
        by rw [changeVolume_attempts, if_pos hg, hb]; rfl, hbs,
        by rw [changeVolume_currentSound, hbc]⟩
    · exact ⟨g, b, by rw [changeVolume_attempts, if_neg hg]; exact hb, hbs,
        by rw [changeVolume_currentSound]; exact hbc⟩
  · intro g hg
    rw [changeVolume_playId] at hg
    rw [changeVolume_attempts]
    by_cases h : s.audioRef = some g
    · rw [if_pos h, hI.freshNone g hg]
      rfl
    · rw [if_neg h]
      exact hI.freshNone g hg

/-- Pausing a non-active element preserves the invariant. -/
theorem Inv_pauseAudio (g : Nat) {s : HookState} (hI : Inv s)
    (hne : s.audioRef ≠ some g) :
    Inv (updateAudio g (fun a => { a with paused := true }) s) := by
  constructor
  · intro g' a h hp
    rw [updateAudio_audioRef]
    rw [updateAudio_attempts] at h
    by_cases hg : g' = g
    · rw [if_pos hg] at h
      rcases hx : s.attempts g' with _ | b
      · rw [hx] at h
        cases h
      · rw [hx] at h
        obtain rfl := Option.some.inj h
        exact Bool.noConfusion hp
    · rw [if_neg hg] at h
      exact hI.audibleActive g' a h hp
  · intro g' h
    rw [updateAudio_audioRef] at h
    rw [updateAudio_playId]
    exact hI.activeLive g' h
  · intro g' h
    rw [updateAudio_audioRef] at h
    obtain ⟨p1, p2, p3, p4, b, hb, hbs, hbp, hbc⟩ := hI.activeState g' h
    refine ⟨by simpa using p1, by simpa using p2, by simpa using p3, by simpa using p4, ?_⟩
    have hg : g' ≠ g := by
      intro hEq
      exact hne (hEq ▸ h)
    exact ⟨b, by rw [updateAudio_attempts, if_neg hg]; exact hb, hbs, hbp,
      by rw [updateAudio_currentSound]; exact hbc⟩
  · intro h
    rw [updateAudio_isPlaying] at h
    obtain ⟨g', b, hb, hbs, hbc⟩ := hI.playingConfirmed h
    by_cases hg : g' = g
    · subst hg
      refine ⟨g', { b with audio := { b.audio with paused := true } }, ?_, hbs, ?_⟩
      · rw [updateAudio_attempts, if_pos rfl, hb]
        rfl
      · rw [updateAudio_currentSound, hbc]
    · exact ⟨g', b, by rw [updateAudio_attempts, if_neg hg]; exact hb, hbs,
        by rw [updateAudio_currentSound]; exact hbc⟩
  · intro g' hg'
    rw [updateAudio_playId] at hg'
    rw [updateAudio_attempts]
    by_cases hg : g' = g
    · rw [if_pos hg, hI.freshNone g' hg']
      rfl
    · rw [if_neg hg]
      exact hI.freshNone g' hg'

/-- `resolveOkStep` preserves the invariant. -/
theorem Inv_resolveOk (g : Nat) {s : HookState} (hI : Inv s) :
    Inv (resolveOkStep g s) := by
  rcases resolveOkStep_cases g s with heq | ⟨hc, hn, heq⟩ | ⟨att, hc, hatt, hp, heq⟩
    | ⟨att, hc, hatt, hp, heq⟩
  · rwa [heq]
  · rw [heq]
    exact Inv_of_fields hI rfl rfl (Or.inl rfl) rfl rfl rfl (Or.inl rfl) rfl
  · rw [heq]
    have hbase : Inv ({ s with pendingPlays := s.pendingPlays.erase g } : HookState) :=
      Inv_of_fields hI rfl rfl (Or.inl rfl) rfl rfl rfl (Or.inl rfl) rfl
    refine Inv_pauseAudio g hbase ?_
    intro hx
    exact hp (hI.activeLive g hx)
  · rw [heq]
    have hattf : ∀ g',
        ({ setAttempt g { att with started := true, audio := { att.audio with paused := false } }
             { s with pendingPlays := s.pendingPlays.erase g } with
           audioRef := some g, pendingAudioRef := none,
           currentSound := some att.sound, isPlaying := true,
           isLoading := false, loadTimeout := none } : HookState).attempts g'
          = if g' = g
            then some { att with started := true, audio := { att.audio with paused := false } }
            else s.attempts g' := by
      intro g'
      show (setAttempt g _ _).attempts g' = _
      rw [setAttempt_attempts]
    constructor
    · intro g' a h hpz
      show some g = some g'
      by_cases hg : g' = g
      · rw [hg]
      · rw [hattf g', if_neg hg] at h
        have h1 := hI.audibleActive g' a h hpz
        have h2 := hI.activeLive g' h1
        omega
    · intro g' h
      obtain rfl := Option.some.inj h
      exact hp
    · intro g' h
      obtain rfl := Option.some.inj h
      refine ⟨rfl, rfl, rfl, rfl,
        { att with started := true, audio := { att.audio with paused := false } },
        by rw [hattf g, if_pos rfl], rfl, rfl, rfl⟩
    · intro h
      exact ⟨g, { att with started := true, audio := { att.audio with paused := false } },
        by rw [hattf g, if_pos rfl], rfl, rfl⟩
    · intro g' hg'
      have hgg : s.playId < g' := hg'
      have hne : g' ≠ g := by omega
      rw [hattf g', if_neg hne]
      exact hI.freshNone g' hgg
  
/-- `canplayFire` preserves the invariant. -/
theorem Inv_canplay (g : Nat) {s : HookState} (hI : Inv s) : Inv (canplayFire g s) := by
  rcases canplayFire_cases g s with heq | ⟨att, hatt, hreg, heq⟩
  · rwa [heq]
  · rw [heq]
    exact Inv_startPlayback g
      (Inv_setAttempt_preserve hI g att { att with canplayReg := false } hatt rfl rfl rfl)

/-- `errorFire` preserves the invariant. -/
theorem Inv_error (g : Nat) {s : HookState} (hI : Inv s) : Inv (errorFire g s) := by
  rcases errorFire_cases g s with heq | ⟨att, hatt, hreg, ⟨hp, heq⟩ | ⟨hp, heq⟩⟩
  · rwa [heq]
  · rw [heq]
    exact Inv_setAttempt_preserve hI g att { att with errorReg := false } hatt rfl rfl rfl
  · rw [heq]
    have hmid := Inv_setAttempt_preserve hI g att { att with errorReg := false } hatt rfl rfl rfl
    exact Inv_of_fields hmid rfl rfl (Or.inr rfl) rfl rfl rfl (Or.inl rfl) rfl

/-- `resolveFailStep` preserves the invariant. -/
theorem Inv_resolveFail (g : Nat) {s : HookState} (hI : Inv s) :
    Inv (resolveFailStep g s) := by
  rcases resolveFailStep_cases g s with heq | heq
  · rwa [heq]
  · rw [heq]
    exact Inv_of_fields hI rfl rfl (Or.inl rfl) rfl rfl rfl (Or.inl rfl) rfl

/-- `timerFireStep` preserves the invariant. -/
theorem Inv_timer {s : HookState} (hI : Inv s) : Inv (timerFireStep s) := by
  rcases timerFireStep_cases s with heq | ⟨g, hlt, heq⟩
  · rwa [heq]
  · rw [heq]
    refine Inv_startPlayback g ?_
    exact Inv_of_fields hI rfl rfl (Or.inl rfl) rfl rfl rfl (Or.inr rfl) rfl

/-- `toggleSound` preserves the invariant. -/
theorem Inv_toggle (snd : AmbientSound) {s : HookState} (hI : Inv s) :
    Inv (toggleSound snd s) := by
  unfold toggleSound
  split
  · exact Inv_stop hI
  · exact Inv_play snd hI

/-- Every step preserves the invariant. -/
theorem Inv_step (e : Ev) {s : HookState} (hI : Inv s) : Inv (step e s) := by
  cases e with
  | play snd => exact Inv_play snd hI
  | stop => exact Inv_stop hI
  | toggle snd => exact Inv_toggle snd hI
  | setVol v => exact Inv_changeVolume v hI
  | canplay g => exact Inv_canplay g hI
  | errorEv g => exact Inv_error g hI
  | resolveOk g => exact Inv_resolveOk g hI
  | resolveFail g => exact Inv_resolveFail g hI
  | timerFire => exact Inv_timer hI

@[simp] theorem run_nil (s : HookState) : run [] s = s := rfl

@[simp] theorem run_cons (e : Ev) (tl : List Ev) (s : HookState) :
    run (e :: tl) s = run tl (step e s) := rfl

/-- The initial state satisfies the invariant. -/
theorem Inv_init (st : Option String) : Inv (initState st) := by
  constructor
  · intro g att h
    exact Option.noConfusion h
  · intro g h
    exact Option.noConfusion h
  · intro g h
    exact Option.noConfusion h
  · intro h
    exact Bool.noConfusion h
  · intro g hg
    rfl

/-- Runs preserve the invariant. -/
theorem Inv_run (evs : List Ev) {s : HookState} (hI : Inv s) : Inv (run evs s) := by
  induction evs generalizing s with
  | nil => exact hI
  | cons e tl ih => exact ih (Inv_step e hI)

/-- Every reachable state satisfies the invariant. -/
theorem Inv_reachable (st : Option String) (evs : List Ev) :
    Inv (run evs (initState st)) :=
  Inv_run evs (Inv_init st)

end AmbientHook

namespace AmbientHook

/-- Transfer of `SupInv` along steps not touching the relevant fields. -/
theorem SupInv_of_fields {B : AmbientSound} {s t : HookState} (hS : SupInv B s)
    (h1 : t.isPlaying = s.isPlaying) (h2 : t.currentSound = s.currentSound)
    (h4 : t.playId = s.playId) (h8 : t.attempts = s.attempts) : SupInv B t := by
  constructor
  · rw [h4]
    exact hS.pid
  · rw [h8]
    exact hS.att1paused
  · intro b hb
    rw [h8] at hb
    exact hS.att2sound b hb
  · rcases hS.branch with ⟨b1, b2⟩ | ⟨b1, b2⟩
    · exact Or.inl ⟨by rw [h1]; exact b1, by rw [h2]; exact b2⟩
    · exact Or.inr ⟨by rw [h1]; exact b1, by rw [h2]; exact b2⟩
  · intro g' hg1 hg2
    rw [h8]
    exact hS.others g' hg1 hg2

/-- Replacing an attempt record without changing its sound or its element's
paused flag preserves `SupInv`. -/
theorem SupInv_setAttempt_preserve {B : AmbientSound} {s : HookState} (hS : SupInv B s)
    (g : Nat) (att att2 : Attempt) (hatt : s.attempts g = some att)
    (hsound : att2.sound = att.sound)
    (hpause : att2.audio.paused = att.audio.paused) :
    SupInv B (setAttempt g att2 s) := by
  constructor
  · rw [setAttempt_playId]
    exact hS.pid
  · rw [setAttempt_attempts]
    by_cases h1g : (1 : Nat) = g
    · rw [if_pos h1g]
      have h := hS.att1paused
      rw [← h1g] at hatt
      rw [hatt] at h
      show att2.audio.paused = true
      rw [hpause]
      exact h
    · rw [if_neg h1g]
      exact hS.att1paused
  · intro b hb
    rw [setAttempt_attempts] at hb
    by_cases h2g : (2 : Nat) = g
    · rw [if_pos h2g] at hb
      obtain rfl := Option.some.inj hb
      rw [hsound]
      apply hS.att2sound
      rw [h2g]
      exact hatt
    · rw [if_neg h2g] at hb
      exact hS.att2sound b hb
  · rcases hS.branch with ⟨b1, b2⟩ | ⟨b1, b2⟩
    · exact Or.inl ⟨by simpa using b1, by simpa using b2⟩
    · exact Or.inr ⟨by simpa using b1, by simpa using b2⟩
  · intro g' hg1 hg2
    rw [setAttempt_attempts]
    have hne : g' ≠ g := by
      intro hEq
      subst hEq
      rw [hS.others g' hg1 hg2] at hatt
      cases hatt
    rw [if_neg hne]
    exact hS.others g' hg1 hg2

/-- Asynchronous completions preserve `SupInv`. -/
theorem SupInv_step {B : AmbientSound} {s : HookState} (e : Ev)
    (he : e.isAsync = true) (hS : SupInv B s) : SupInv B (step e s) := by
  cases e with
  | play snd => exact Bool.noConfusion he
  | stop => exact Bool.noConfusion he
  | toggle snd => exact Bool.noConfusion he
  | setVol v => exact Bool.noConfusion he
  | canplay g =>
    show SupInv B (canplayFire g s)
    rcases canplayFire_cases g s with heq | ⟨att, hatt, hreg, heq⟩
    · rwa [heq]
    · rw [heq]
      exact SupInv_of_fields
        (SupInv_setAttempt_preserve hS g att { att with canplayReg := false } hatt rfl rfl)
        (by simp) (by simp) (by simp) (by simp)
  | errorEv g =>
    show SupInv B (errorFire g s)
    rcases errorFire_cases g s with heq | ⟨att, hatt, hreg, ⟨hp, heq⟩ | ⟨hp, heq⟩⟩
    · rwa [heq]
    · rw [heq]
      exact SupInv_setAttempt_preserve hS g att { att with errorReg := false } hatt rfl rfl
    · rw [heq]
      exact SupInv_of_fields
        (SupInv_setAttempt_preserve hS g att { att with errorReg := false } hatt rfl rfl)
        rfl rfl rfl rfl
  | resolveFail g =>
    show SupInv B (resolveFailStep g s)
    rcases resolveFailStep_cases g s with heq | heq
    · rwa [heq]
    · rw [heq]
      exact SupInv_of_fields hS rfl rfl rfl rfl
  | timerFire =>
    show SupInv B (timerFireStep s)
    rcases timerFireStep_cases s with heq | ⟨g, hlt, heq⟩
    · rwa [heq]
    · rw [heq]
      exact SupInv_of_fields (SupInv_of_fields hS rfl rfl rfl rfl)
        (by simp) (by simp) (by simp) (by simp)
  | resolveOk g =>
    show SupInv B (resolveOkStep g s)
    rcases resolveOkStep_cases g s with heq | ⟨hc, hn, heq⟩ | ⟨att, hc, hatt, hp, heq⟩
      | ⟨att, hc, hatt, hp, heq⟩
    · rwa [heq]
    · rw [heq]
      exact SupInv_of_fields hS rfl rfl rfl rfl
    · rw [heq]
      have hbase : SupInv B ({ s with pendingPlays := s.pendingPlays.erase g } : HookState) :=
        SupInv_of_fields hS rfl rfl rfl rfl
      constructor
      · rw [updateAudio_playId]
        exact hbase.pid
      · rw [updateAudio_attempts]
        by_cases h1g : (1 : Nat) = g
        · rw [if_pos h1g]
          rcases hx : ({ s with pendingPlays := s.pendingPlays.erase g } : HookState).attempts 1
            with _ | b
          · rfl
          · rfl
        · rw [if_neg h1g]
          exact hbase.att1paused
      · intro b hb
        rw [updateAudio_attempts] at hb
        by_cases h2g : (2 : Nat) = g
        · rw [if_pos h2g] at hb
          rcases hx : ({ s with pendingPlays := s.pendingPlays.erase g } : HookState).attempts 2
            with _ | c
          · rw [hx] at hb
            cases hb
          · rw [hx] at hb
            obtain rfl := Option.some.inj hb
            show c.sound = B
            exact hbase.att2sound c hx
        · rw [if_neg h2g] at hb
          exact hbase.att2sound b hb
      · rcases hbase.branch with ⟨b1, b2⟩ | ⟨b1, b2⟩
        · exact Or.inl ⟨by simpa using b1, by simpa using b2⟩
        · exact Or.inr ⟨by simpa using b1, by simpa using b2⟩
      · intro g' hg1 hg2
        rw [updateAudio_attempts]
        by_cases hgg : g' = g
        · rw [if_pos hgg, hbase.others g' hg1 hg2]
          rfl
        · rw [if_neg hgg]
          exact hbase.others g' hg1 hg2
    · rw [heq]
      obtain rfl : g = 2 := by rw [← hp, hS.pid]
      have hattf : ∀ g',
          ({ setAttempt 2 { att with started := true, audio := { att.audio with paused := false } }
               { s with pendingPlays := s.pendingPlays.erase 2 } with
             audioRef := some 2, pendingAudioRef := none,
             currentSound := some att.sound, isPlaying := true,
             isLoading := false, loadTimeout := none } : HookState).attempts g'
            = if g' = 2
              then some { att with started := true, audio := { att.audio with paused := false } }
              else s.attempts g' := by
        intro g'
        show (setAttempt 2 _ _).attempts g' = _
        rw [setAttempt_attempts]
      constructor
      · show s.playId = 2
        exact hS.pid
      · rw [hattf 1, if_neg (by omega)]
        exact hS.att1paused
      · intro b hb
        rw [hattf 2, if_pos rfl] at hb
        obtain rfl := Option.some.inj hb
        show att.sound = B
        exact hS.att2sound att hatt
      · refine Or.inr ⟨rfl, ?_⟩
        show some att.sound = some B
        rw [hS.att2sound att hatt]
      · intro g' hg1 hg2
        rw [hattf g', if_neg hg2]
        exact hS.others g' hg1 hg2

/-- Asynchronous runs preserve `SupInv`. -/
theorem SupInv_run {B : AmbientSound} {s : HookState} (evs : List Ev)
    (hall : ∀ e ∈ evs, e.isAsync = true) (hS : SupInv B s) : SupInv B (run evs s) := by
  induction evs generalizing s with
  | nil => exact hS
  | cons e tl ih =>
    rw [run_cons]
    exact ih (fun e' he' => hall e' (List.mem_cons_of_mem e he'))
      (SupInv_step e (hall e (List.mem_cons_self e tl)) hS)

/-- `play A; play B` from a fresh controller establishes `SupInv`. -/
theorem SupInv_start (A B : AmbientSound) (st : Option String) :
    SupInv B (playSound B (playSound A (initState st))) := by
  have hXpid : (playSound A (initState st)).playId = 1 := by
    rw [playSound_playId]
    rfl
  have hIX : Inv (playSound A (initState st)) := Inv_play A (Inv_init st)
  constructor
  · rw [playSound_playId, hXpid]
  · rcases hx : (playSound B (playSound A (initState st))).attempts 1 with _ | b
    · rfl
    · show b.audio.paused = true
      exact playSound_paused hIX 1 b hx
  · intro b hb
    have h2 : (playSound B (playSound A (initState st))).attempts 2
        = some (newAttempt B (playSound A (initState st)).volume) := by
      have := playSound_attempts_new B (playSound A (initState st))
      rw [hXpid] at this
      exact this
    rw [h2] at hb
    obtain rfl := Option.some.inj hb
    rfl
  · refine Or.inl ⟨?_, ?_⟩
    · rw [playSound_isPlaying, playSound_isPlaying]
      rfl
    · rw [playSound_currentSound, playSound_currentSound]
      rfl
  · intro g hg1 hg2
    have hne2 : g ≠ (playSound A (initState st)).playId + 1 := by
      rw [hXpid]
      exact hg2
    rcases playSound_shadow B (playSound A (initState st)) g hne2 with heq | ⟨a, a', ha, _, _⟩
    all_goals
      have hXnone : (playSound A (initState st)).attempts g = none := by
        have hne1 : g ≠ (initState st).playId + 1 := hg1
        rcases playSound_shadow A (initState st) g hne1 with heq' | ⟨c, c', hc, _, _⟩
        · rw [heq']
          rfl
        · exact Option.noConfusion hc
    · rw [heq]
      exact hXnone
    · rw [hXnone] at ha
      cases ha

end AmbientHook

namespace AmbientHook

/-- Exclusivity transfers backwards along paused-reflecting table maps. -/
theorem AtMostOneAudible_of_pointwise {s t : HookState}
    (h : ∀ g att', t.attempts g = some att' → att'.audio.paused = false →
      ∃ att, s.attempts g = some att ∧ att.audio.paused = false)
    (ha : AtMostOneAudible s) : AtMostOneAudible t := by
  intro g₁ a₁ g₂ a₂ h1 hp1 h2 hp2
  obtain ⟨b₁, hb₁, hq₁⟩ := h g₁ a₁ h1 hp1
  obtain ⟨b₂, hb₂, hq₂⟩ := h g₂ a₂ h2 hp2
  exact ha g₁ b₁ g₂ b₂ hb₁ hq₁ hb₂ hq₂

/-- Reachable states have at most one audible element. -/
theorem reachable_AtMostOneAudible (st : Option String) (evs : List Ev) :
    AtMostOneAudible (run evs (initState st)) := by
  intro g₁ a₁ g₂ a₂ h1 hp1 h2 hp2
  have hI := Inv_reachable st evs
  have e1 := hI.audibleActive g₁ a₁ h1 hp1
  have e2 := hI.audibleActive g₂ a₂ h2 hp2
  rw [e1] at e2
  exact Option.some.inj e2

end AmbientHook

namespace AmbientHook

/-- Exclusivity is preserved when one attempt is replaced without changing
its element's paused flag. -/
theorem AtMostOneAudible_setAttempt {s : HookState} (ha : AtMostOneAudible s)
    (g : Nat) (att att2 : Attempt) (hatt : s.attempts g = some att)
    (hpause : att2.audio.paused = att.audio.paused) :
    AtMostOneAudible (setAttempt g att2 s) := by
  refine AtMostOneAudible_of_pointwise ?_ ha
  intro g' a' h' hp'
  rw [setAttempt_attempts] at h'
  by_cases hgg : g' = g
  · rw [if_pos hgg] at h'
    obtain rfl := Option.some.inj h'
    rw [hpause] at hp'
    exact ⟨att, hgg ▸ hatt, hp'⟩
  · rw [if_neg hgg] at h'
    exact ⟨a', h', hp'⟩

/-- Exclusivity only depends on the attempt table. -/
theorem AtMostOneAudible_of_attempts_eq {s t : HookState}
    (h : t.attempts = s.attempts) (ha : AtMostOneAudible s) : AtMostOneAudible t := by
  intro g₁ a₁ g₂ a₂ h1 hp1 h2 hp2
  rw [h] at h1 h2
  exact ha g₁ a₁ g₂ a₂ h1 hp1 h2 hp2

/-- C2: an asynchronous completion — a `canplay` ("load succeeded") event,
an `error` event, or an `audio.play()` promise resolution — whose captured
generation `g` differs from the live generation is a no-op on the observable
state (`isPlaying`, `currentSound`, `isLoading` are unchanged), and it keeps
at most one element audible (a stale play-success even pauses its own
element within the same step). -/
theorem stale_generation_callback_noop (s : HookState) (g : Nat)
    (hg : g ≠ s.playId) (ha : AtMostOneAudible s) :
    obs (canplayFire g s) = obs s ∧
    obs (errorFire g s) = obs s ∧
    obs (resolveOkStep g s) = obs s ∧
    obs (resolveFailStep g s) = obs s ∧
    AtMostOneAudible (canplayFire g s) ∧
    AtMostOneAudible (errorFire g s) ∧
    AtMostOneAudible (resolveOkStep g s) ∧
    AtMostOneAudible (resolveFailStep g s) := by
  have hg' : s.playId ≠ g := fun h => hg h.symm
  refine ⟨?_, ?_, ?_, ?_, ?_, ?_, ?_, ?_⟩
  · rcases canplayFire_cases g s with heq | ⟨att, hatt, hreg, heq⟩
    · rw [heq]
    · rw [heq]
      simp [obs]
  · rcases errorFire_cases g s with heq | ⟨att, hatt, hreg, ⟨hp, heq⟩ | ⟨hp, heq⟩⟩
    · rw [heq]
    · rw [heq]
      simp [obs]
    · exact absurd hp hg'
  · rcases resolveOkStep_cases g s with heq | ⟨hc, hn, heq⟩ | ⟨att, hc, hatt, hp, heq⟩
      | ⟨att, hc, hatt, hp, heq⟩
    · rw [heq]
    · rw [heq]
      simp [obs]
    · rw [heq]
      simp [obs]
    · exact absurd hp hg'
  · rcases resolveFailStep_cases g s with heq | heq
    · rw [heq]
    · rw [heq]
      simp [obs]
  · rcases canplayFire_cases g s with heq | ⟨att, hatt, hreg, heq⟩
    · rwa [heq]
    · rw [heq]
      exact @AtMostOneAudible_of_attempts_eq
        (setAttempt g { att with canplayReg := false } s)
        (startPlayback g (setAttempt g { att with canplayReg := false } s)) (by simp)
        (AtMostOneAudible_setAttempt ha g att { att with canplayReg := false } hatt rfl)
  · rcases errorFire_cases g s with heq | ⟨att, hatt, hreg, ⟨hp, heq⟩ | ⟨hp, heq⟩⟩
    · rwa [heq]
    · rw [heq]
      exact AtMostOneAudible_setAttempt ha g att { att with errorReg := false } hatt rfl
    · exact absurd hp hg'
  · rcases resolveOkStep_cases g s with heq | ⟨hc, hn, heq⟩ | ⟨att, hc, hatt, hp, heq⟩
      | ⟨att, hc, hatt, hp, heq⟩
    · rwa [heq]
    · rw [heq]
      exact AtMostOneAudible_of_attempts_eq rfl ha
    · rw [heq]
      refine AtMostOneAudible_of_pointwise ?_ ha
      intro g' a' h' hp'
      rw [updateAudio_attempts] at h'
      by_cases hgg : g' = g
      · rw [if_pos hgg] at h'
        rcases hx : s.attempts g' with _ | b
        · have hx' : ({ s with pendingPlays := s.pendingPlays.erase g } : HookState).attempts g'
              = none := hx
          rw [hx'] at h'
          cases h'
        · have hx' : ({ s with pendingPlays := s.pendingPlays.erase g } : HookState).attempts g'
              = some b := hx
          rw [hx'] at h'
          obtain rfl := Option.some.inj h'
          exact Bool.noConfusion hp'
      · rw [if_neg hgg] at h'
        exact ⟨a', h', hp'⟩
    · exact absurd hp hg'
  · rcases resolveFailStep_cases g s with heq | heq
    · rwa [heq]
    · rw [heq]
      exact AtMostOneAudible_of_attempts_eq rfl ha

/-- Witness for C2 at a concrete state: generation 1 is stale after the
supersession `play rain; play birds` has moved the live generation to 2. -/
theorem stale_generation_callback_noop_witness :
    ((1 : Nat) ≠ (run [Ev.play rainSound, Ev.play birdsSound] (initState none)).playId ∧
      AtMostOneAudible (run [Ev.play rainSound, Ev.play birdsSound] (initState none))) ∧
    (obs (canplayFire 1 (run [Ev.play rainSound, Ev.play birdsSound] (initState none)))
        = obs (run [Ev.play rainSound, Ev.play birdsSound] (initState none)) ∧
      obs (errorFire 1 (run [Ev.play rainSound, Ev.play birdsSound] (initState none)))
        = obs (run [Ev.play rainSound, Ev.play birdsSound] (initState none)) ∧
      obs (resolveOkStep 1 (run [Ev.play rainSound, Ev.play birdsSound] (initState none)))
        = obs (run [Ev.play rainSound, Ev.play birdsSound] (initState none)) ∧
      obs (resolveFailStep 1 (run [Ev.play rainSound, Ev.play birdsSound] (initState none)))
        = obs (run [Ev.play rainSound, Ev.play birdsSound] (initState none)) ∧
      AtMostOneAudible (canplayFire 1 (run [Ev.play rainSound, Ev.play birdsSound] (initState none))) ∧
      AtMostOneAudible (errorFire 1 (run [Ev.play rainSound, Ev.play birdsSound] (initState none))) ∧
      AtMostOneAudible (resolveOkStep 1 (run [Ev.play rainSound, Ev.play birdsSound] (initState none))) ∧
      AtMostOneAudible (resolveFailStep 1 (run [Ev.play rainSound, Ev.play birdsSound] (initState none)))) :=
  ⟨⟨by decide, reachable_AtMostOneAudible none [Ev.play rainSound, Ev.play birdsSound]⟩,
    stale_generation_callback_noop
      (run [Ev.play rainSound, Ev.play birdsSound] (initState none)) 1 (by decide)
      (reachable_AtMostOneAudible none [Ev.play rainSound, Ev.play birdsSound])⟩

/-- Pointwise attempt table of a live (committing) play-success. -/
theorem resolveOkStep_live_attempts (g : Nat) (s : HookState) (att : Attempt)
    (hm : g ∈ s.pendingPlays) (hatt : s.attempts g = some att) (hp : s.playId = g)
    (g' : Nat) :
    (resolveOkStep g s).attempts g'
      = if g' = g
        then some { att with started := true, audio := { att.audio with paused := false } }
        else s.attempts g' := by
  by_cases hgg : g' = g
  · simp [resolveOkStep, hm, hatt, hp, setAttempt_attempts, hgg]
  · simp [resolveOkStep, hm, hatt, hp, setAttempt_attempts, hgg]

/-- C3: in every reachable state at most one element is audible; once a
generation is `Playing` (its element is the active ref), a further
play-success signal for it is an idempotent no-op on the observable state,
the refs and the whole attempt table; and a play-success for a superseded
generation leaves that generation's element paused. -/
theorem exclusive_single_start_per_generation :
    (∀ (st : Option String) (evs : List Ev),
      AtMostOneAudible (run evs (initState st))) ∧
    (∀ (st : Option String) (evs : List Ev) (g : Nat),
      (run evs (initState st)).audioRef = some g →
      obs (resolveOkStep g (run evs (initState st))) = obs (run evs (initState st)) ∧
      (resolveOkStep g (run evs (initState st))).audioRef
        = (run evs (initState st)).audioRef ∧
      (resolveOkStep g (run evs (initState st))).pendingAudioRef
        = (run evs (initState st)).pendingAudioRef ∧
      (resolveOkStep g (run evs (initState st))).loadTimeout
        = (run evs (initState st)).loadTimeout ∧
      (resolveOkStep g (run evs (initState st))).playId
        = (run evs (initState st)).playId ∧
      (∀ g', (resolveOkStep g (run evs (initState st))).attempts g'
        = (run evs (initState st)).attempts g')) ∧
    (∀ (s : HookState) (g : Nat) (att : Attempt), g ≠ s.playId →
      s.pendingPlays.contains g = true →
      (resolveOkStep g s).attempts g = some att → att.audio.paused = true) := by
  refine ⟨reachable_AtMostOneAudible, ?_, ?_⟩
  · intro st evs g h
    have hI := Inv_reachable st evs
    have hlive := hI.activeLive g h
    obtain ⟨p1, p2, p3, p4, b, hb, hbs, hbp, hbc⟩ := hI.activeState g h
    rcases resolveOkStep_cases g (run evs (initState st)) with heq | ⟨hc, hn, heq⟩
      | ⟨att, hc, hatt, hp, heq⟩ | ⟨att, hc, hatt, hp, heq⟩
    · rw [heq]
      exact ⟨rfl, rfl, rfl, rfl, rfl, fun g' => rfl⟩
    · rw [hn] at hb
      cases hb
    · exact absurd hlive hp
    · obtain rfl := Option.some.inj (hatt.symm.trans hb)
      have hatt2 : ({ att with
          started := true,
          audio := { att.audio with paused := false } } : Attempt) = att := by
        rw [← hbs, ← hbp]
      refine ⟨?_, ?_, ?_, ?_, ?_, ?_⟩
      · rw [heq]
        show (true, some att.sound, false)
          = ((run evs (initState st)).isPlaying, (run evs (initState st)).currentSound,
             (run evs (initState st)).isLoading)
        rw [p1, p2, hbc]
      · rw [heq]
        show some g = (run evs (initState st)).audioRef
        exact h.symm
      · rw [heq]
        show none = (run evs (initState st)).pendingAudioRef
        exact p3.symm
      · rw [heq]
        show none = (run evs (initState st)).loadTimeout
        exact p4.symm
      · rw [heq]
        rfl
      · intro g'
        rw [resolveOkStep_live_attempts g (run evs (initState st)) att
          (by simpa using hc) hatt hp g', hatt2]
        by_cases hgg : g' = g
        · rw [if_pos hgg, hgg]
          exact hb.symm
        · rw [if_neg hgg]
  · intro s g att hg hc h
    have hm : g ∈ s.pendingPlays := by simpa using hc
    have hg' : s.playId ≠ g := fun hx => hg hx.symm
    cases hatt : s.attempts g with
    | none =>
      have heq : resolveOkStep g s = { s with pendingPlays := s.pendingPlays.erase g } := by
        simp [resolveOkStep, hm, hatt]
      rw [heq] at h
      have h2 : s.attempts g = some att := h
      rw [hatt] at h2
      cases h2
    | some b =>
      have heq : resolveOkStep g s = updateAudio g (fun a => { a with paused := true })
          { s with pendingPlays := s.pendingPlays.erase g } := by
        simp [resolveOkStep, hm, hatt, hg']
      rw [heq, updateAudio_attempts, if_pos rfl] at h
      have hbase : ({ s with pendingPlays := s.pendingPlays.erase g } : HookState).attempts g
          = some b := hatt
      rw [hbase] at h
      obtain rfl := Option.some.inj h
      rfl

/-- Witness for C3 at a concrete state: after `play rain; resolveOk 1` the
controller is `Playing` generation 1, and all parts apply there. -/
theorem exclusive_single_start_per_generation_witness :
    ((run [Ev.play rainSound, Ev.resolveOk 1] (initState none)).audioRef = some 1 ∧
      (1 : Nat) ≠ (run [Ev.play rainSound, Ev.play birdsSound] (initState none)).playId ∧
      (run [Ev.play rainSound, Ev.play birdsSound] (initState none)).pendingPlays.contains 1
        = true) ∧
    (obs (resolveOkStep 1 (run [Ev.play rainSound, Ev.resolveOk 1] (initState none)))
      = obs (run [Ev.play rainSound, Ev.resolveOk 1] (initState none)) ∧
     AtMostOneAudible (run [Ev.play rainSound, Ev.resolveOk 1] (initState none))) :=
  ⟨⟨rfl, by decide, by decide⟩,
    (exclusive_single_start_per_generation.2.1 none [Ev.play rainSound, Ev.resolveOk 1] 1 rfl).1,
    exclusive_single_start_per_generation.1 none [Ev.play rainSound, Ev.resolveOk 1]⟩

end AmbientHook

namespace AmbientHook

/-- C1: a `play` call is always accepted — it claims a fresh generation,
sets `isLoading`, and parks a fresh attempt for the requested sound in
`pendingAudioRef`, superseding whatever was in flight — and for the
supersession scenario `play A` immediately followed by `play B` on a fresh
controller, after any sequence of asynchronous completions the observable
state is either still unconfirmed (`isPlaying = false`, `currentSound`
unset) or `Playing` with `currentSound = B`, while A's element (generation
1) is never audible. -/
theorem play_always_accepted_and_supersedes :
    (∀ snd ∈ AMBIENT_SOUNDS, ∀ s : HookState,
      (playSound snd s).playId = s.playId + 1 ∧
      (playSound snd s).isLoading = true ∧
      (playSound snd s).pendingAudioRef = some (s.playId + 1) ∧
      (playSound snd s).attempts (s.playId + 1) = some (newAttempt snd s.volume)) ∧
    (∀ A ∈ AMBIENT_SOUNDS, ∀ B ∈ AMBIENT_SOUNDS, ∀ (st : Option String) (evs : List Ev),
      (∀ e ∈ evs, e.isAsync = true) →
      (((run evs (playSound B (playSound A (initState st)))).isPlaying = false ∧
        (run evs (playSound B (playSound A (initState st)))).currentSound = none) ∨
       ((run evs (playSound B (playSound A (initState st)))).isPlaying = true ∧
        (run evs (playSound B (playSound A (initState st)))).currentSound = some B)) ∧
      pausedOpt ((run evs (playSound B (playSound A (initState st)))).attempts 1) = true) := by
  constructor
  · intro snd _ s
    exact ⟨playSound_playId snd s, playSound_isLoading snd s,
      playSound_pendingAudioRef snd s, playSound_attempts_new snd s⟩
  · intro A _ B _ st evs hall
    have hS := SupInv_run evs hall (SupInv_start A B st)
    exact ⟨hS.branch, hS.att1paused⟩

/-- Witness for C1: `play rain; play birds` from a fresh controller, then
birds' play-success for generation 2 arrives. -/
theorem play_always_accepted_and_supersedes_witness :
    (rainSound ∈ AMBIENT_SOUNDS ∧ birdsSound ∈ AMBIENT_SOUNDS ∧
      (∀ e ∈ [Ev.resolveOk 2], Ev.isAsync e = true)) ∧
    ((playSound rainSound (initState none)).playId = (initState none).playId + 1 ∧
      (playSound rainSound (initState none)).isLoading = true ∧
      (playSound rainSound (initState none)).pendingAudioRef
        = some ((initState none).playId + 1) ∧
      (playSound rainSound (initState none)).attempts ((initState none).playId + 1)
        = some (newAttempt rainSound (initState none).volume)) ∧
    ((((run [Ev.resolveOk 2] (playSound birdsSound (playSound rainSound (initState none)))).isPlaying
          = false ∧
        (run [Ev.resolveOk 2] (playSound birdsSound (playSound rainSound (initState none)))).currentSound
          = none) ∨
      ((run [Ev.resolveOk 2] (playSound birdsSound (playSound rainSound (initState none)))).isPlaying
          = true ∧
        (run [Ev.resolveOk 2] (playSound birdsSound (playSound rainSound (initState none)))).currentSound
          = some birdsSound)) ∧
      pausedOpt ((run [Ev.resolveOk 2] (playSound birdsSound (playSound rainSound
        (initState none)))).attempts 1) = true) :=
  ⟨⟨by decide, by decide, by decide⟩,
    play_always_accepted_and_supersedes.1 rainSound (by decide) (initState none),
    play_always_accepted_and_supersedes.2 rainSound (by decide) birdsSound (by decide)
      none [Ev.resolveOk 2] (by decide)⟩

/-- C4 counterexample: the claim says `isPlaying` is true only after the
underlying resource confirmed playback for the current (live) generation.
After `play rain; resolveOk 1; play birds` the live generation 2 is still
loading and unconfirmed, yet `isPlaying` is still true (a residue of the
superseded rain playback, which `playSound` does not clear). -/
theorem isPlaying_stale_residue_counterexample :
    (run [Ev.play rainSound, Ev.resolveOk 1, Ev.play birdsSound] (initState none)).isPlaying
      = true ∧
    (run [Ev.play rainSound, Ev.resolveOk 1, Ev.play birdsSound] (initState none)).playId = 2 ∧
    confirmedLive (run [Ev.play rainSound, Ev.resolveOk 1, Ev.play birdsSound] (initState none))
      = false ∧
    (run [Ev.play rainSound, Ev.resolveOk 1, Ev.play birdsSound] (initState none)).currentSound
      = some rainSound ∧
    (run [Ev.play rainSound, Ev.resolveOk 1, Ev.play birdsSound] (initState none)).isLoading
      = true :=
  ⟨rfl, rfl, rfl, rfl, rfl⟩

/-- C4 amended: `isPlaying` is true only after the underlying resource has
confirmed playback start for some generation since the last stop, and
`currentSound` then names that generation's sound; during supersession the
previous generation's `isPlaying`/`currentSound` persist while the live
generation is still unconfirmed. -/
theorem isPlaying_requires_some_confirmed_start (st : Option String) (evs : List Ev)
    (h : (run evs (initState st)).isPlaying = true) :
    ∃ g att, (run evs (initState st)).attempts g = some att ∧ att.started = true ∧
      (run evs (initState st)).currentSound = some att.sound :=
  (Inv_reachable st evs).playingConfirmed h

/-- Witness for the amended C4 at a concrete trace. -/
theorem isPlaying_requires_some_confirmed_start_witness :
    ((run [Ev.play rainSound, Ev.resolveOk 1] (initState none)).isPlaying = true) ∧
    (∃ g att, (run [Ev.play rainSound, Ev.resolveOk 1] (initState none)).attempts g = some att ∧
      att.started = true ∧
      (run [Ev.play rainSound, Ev.resolveOk 1] (initState none)).currentSound = some att.sound) :=
  ⟨rfl, isPlaying_requires_some_confirmed_start none [Ev.play rainSound, Ev.resolveOk 1] rfl⟩

/-- C5: `toggle(S)` behaves exactly as `stop()` when the live state is
`Playing` with `currentSound.id = S.id`, and exactly as `play(S)` in every
other state. -/
theorem toggle_dispatch (s : HookState) (snd : AmbientSound) :
    (s.isPlaying = true → ∀ c, s.currentSound = some c → c.id = snd.id →
      toggleSound snd s = stopSound s) ∧
    (¬(s.isPlaying = true ∧ ∃ c, s.currentSound = some c ∧ c.id = snd.id) →
      toggleSound snd s = playSound snd s) := by
  constructor
  · intro hp c hc hid
    unfold toggleSound
    rw [hp, hc]
    rw [if_pos]
    show (true && (c.id == snd.id)) = true
    rw [hid]
    simp
  · intro hn
    unfold toggleSound
    rw [if_neg]
    intro hcond
    cases hp : s.isPlaying with
    | false =>
      rw [hp] at hcond
      simp at hcond
    | true =>
      rw [hp] at hcond
      cases hc : s.currentSound with
      | none =>
        rw [hc] at hcond
        simp at hcond
      | some c =>
        rw [hc] at hcond
        simp at hcond
        exact hn ⟨hp, c, hc, hcond⟩

/-- Witness for C5: toggling rain while rain is confirmed playing stops. -/
theorem toggle_dispatch_witness :
    ((run [Ev.play rainSound, Ev.resolveOk 1] (initState none)).isPlaying = true ∧
      (run [Ev.play rainSound, Ev.resolveOk 1] (initState none)).currentSound = some rainSound ∧
      rainSound.id = rainSound.id) ∧
    toggleSound rainSound (run [Ev.play rainSound, Ev.resolveOk 1] (initState none))
      = stopSound (run [Ev.play rainSound, Ev.resolveOk 1] (initState none)) :=
  ⟨⟨rfl, rfl, rfl⟩,
    (toggle_dispatch (run [Ev.play rainSound, Ev.resolveOk 1] (initState none)) rainSound).1
      rfl rainSound rfl rfl⟩

end AmbientHook

namespace AmbientHook

/-- C6: `stop()` always succeeds (it is a total function) and resets the
observable state to Idle — `isPlaying = false`, `currentSound = null`,
`isLoading = false` — drops both resource refs and the fallback timer, and
invalidates the generation; a second `stop()` leaves the observable state
unchanged (idempotence, safe from Idle); and from any reachable state every
element in the table is paused after `stop()` (all pending/active resources
released). -/
theorem stop_idempotent_resets_and_releases :
    (∀ s : HookState,
      (stopSound s).isPlaying = false ∧
      (stopSound s).currentSound = none ∧
      (stopSound s).isLoading = false ∧
      (stopSound s).audioRef = none ∧
      (stopSound s).pendingAudioRef = none ∧
      (stopSound s).loadTimeout = none ∧
      (stopSound s).playId = s.playId + 1 ∧
      obs (stopSound (stopSound s)) = obs (stopSound s) ∧
      (stopSound (stopSound s)).audioRef = (stopSound s).audioRef ∧
      (stopSound (stopSound s)).pendingAudioRef = (stopSound s).pendingAudioRef) ∧
    (∀ (st : Option String) (evs : List Ev) (g : Nat),
      pausedOpt ((stopSound (run evs (initState st))).attempts g) = true) := by
  constructor
  · intro s
    refine ⟨rfl, rfl, rfl, rfl, by simp, by simp, by simp, ?_, by simp, by simp⟩
    show (false, none, false) = (false, none, false)
    rfl
  · intro st evs g
    rcases hx : (stopSound (run evs (initState st))).attempts g with _ | att
    · rfl
    · show att.audio.paused = true
      exact stopSound_paused (Inv_reachable st evs) g att hx

/-- C7 counterexample: the claim says a load error for the live generation
releases the resource and leaves the controller Idle.  After
`play rain; resolveOk 1; play birds; error 2` the error is for the live
generation 2, yet the failed element is still held by `pendingAudioRef`,
`isPlaying` is still true and `currentSound` is still rain — only
`isLoading` was cleared. -/
theorem error_leaves_state_counterexample :
    (run [Ev.play rainSound, Ev.resolveOk 1, Ev.play birdsSound, Ev.errorEv 2]
      (initState none)).playId = 2 ∧
    (run [Ev.play rainSound, Ev.resolveOk 1, Ev.play birdsSound, Ev.errorEv 2]
      (initState none)).isLoading = false ∧
    (run [Ev.play rainSound, Ev.resolveOk 1, Ev.play birdsSound, Ev.errorEv 2]
      (initState none)).isPlaying = true ∧
    (run [Ev.play rainSound, Ev.resolveOk 1, Ev.play birdsSound, Ev.errorEv 2]
      (initState none)).currentSound = some rainSound ∧
    (run [Ev.play rainSound, Ev.resolveOk 1, Ev.play birdsSound, Ev.errorEv 2]
      (initState none)).pendingAudioRef = some 2 :=
  ⟨rfl, rfl, rfl, rfl, rfl⟩

/-- C7 amended: when the resource reports a load error for the live
generation, `handleError` clears `isLoading`, logs a diagnostic and returns
(no exception); everything else is untouched — `isPlaying`, `currentSound`,
both refs, the generation and the volume keep their values, the failed
element stays referenced by `pendingAudioRef`, and the only table change is
consuming the `once` error listener. -/
theorem error_clears_loading_only (s : HookState) (g : Nat)
    (hreg : errListening s g = true) (hlive : s.playId = g) :
    (errorFire g s).isLoading = false ∧
    (errorFire g s).errLog = s.errLog + 1 ∧
    (errorFire g s).isPlaying = s.isPlaying ∧
    (errorFire g s).currentSound = s.currentSound ∧
    (errorFire g s).audioRef = s.audioRef ∧
    (errorFire g s).pendingAudioRef = s.pendingAudioRef ∧
    (errorFire g s).loadTimeout = s.loadTimeout ∧
    (errorFire g s).playId = s.playId ∧
    (errorFire g s).volume = s.volume ∧
    (errorFire g s).store = s.store ∧
    (∀ g', g' ≠ g → (errorFire g s).attempts g' = s.attempts g') ∧
    (errorFire g s).attempts g
      = (s.attempts g).map (fun att => { att with errorReg := false }) := by
  cases hatt : s.attempts g with
  | none =>
    simp only [errListening, hatt] at hreg
    cases hreg
  | some att =>
    have hr : att.errorReg = true := by simpa [errListening, hatt] using hreg
    have heq : errorFire g s
        = { setAttempt g { att with errorReg := false } s with
            isLoading := false, errLog := s.errLog + 1 } := by
      simp [errorFire, hatt, hr, hlive]
    rw [heq]
    refine ⟨rfl, by simp, by simp, by simp, by simp, by simp, by simp, by simp, by simp,
      by simp, ?_, ?_⟩
    · intro g' hg'
      show (setAttempt g { att with errorReg := false } s).attempts g' = s.attempts g'
      rw [setAttempt_attempts, if_neg hg']
    · show (setAttempt g { att with errorReg := false } s).attempts g
        = Option.map (fun att => { att with errorReg := false }) (some att)
      rw [setAttempt_attempts, if_pos rfl]
      rfl

/-- Witness for the amended C7: the error fires for the live generation 1
right after `play rain`. -/
theorem error_clears_loading_only_witness :
    (errListening (run [Ev.play rainSound] (initState none)) 1 = true ∧
      (run [Ev.play rainSound] (initState none)).playId = 1) ∧
    ((errorFire 1 (run [Ev.play rainSound] (initState none))).isLoading = false ∧
      (errorFire 1 (run [Ev.play rainSound] (initState none))).errLog
        = (run [Ev.play rainSound] (initState none)).errLog + 1 ∧
      (errorFire 1 (run [Ev.play rainSound] (initState none))).isPlaying
        = (run [Ev.play rainSound] (initState none)).isPlaying ∧
      (errorFire 1 (run [Ev.play rainSound] (initState none))).currentSound
        = (run [Ev.play rainSound] (initState none)).currentSound ∧
      (errorFire 1 (run [Ev.play rainSound] (initState none))).audioRef
        = (run [Ev.play rainSound] (initState none)).audioRef ∧
      (errorFire 1 (run [Ev.play rainSound] (initState none))).pendingAudioRef
        = (run [Ev.play rainSound] (initState none)).pendingAudioRef ∧
      (errorFire 1 (run [Ev.play rainSound] (initState none))).loadTimeout
        = (run [Ev.play rainSound] (initState none)).loadTimeout ∧
      (errorFire 1 (run [Ev.play rainSound] (initState none))).playId
        = (run [Ev.play rainSound] (initState none)).playId ∧
      (errorFire 1 (run [Ev.play rainSound] (initState none))).volume
        = (run [Ev.play rainSound] (initState none)).volume ∧
      (errorFire 1 (run [Ev.play rainSound] (initState none))).store
        = (run [Ev.play rainSound] (initState none)).store ∧
      (∀ g', g' ≠ 1 → (errorFire 1 (run [Ev.play rainSound] (initState none))).attempts g'
        = (run [Ev.play rainSound] (initState none)).attempts g') ∧
      (errorFire 1 (run [Ev.play rainSound] (initState none))).attempts 1
        = ((run [Ev.play rainSound] (initState none)).attempts 1).map
            (fun att => { att with errorReg := false })) :=
  ⟨⟨rfl, rfl⟩,
    error_clears_loading_only (run [Ev.play rainSound] (initState none)) 1 rfl rfl⟩

/-- C8 counterexample: the claim says the initial volume is 0.3 whenever the
persisted value is absent or unparsable; but a non-empty unparsable string
such as "abc" is truthy, so the code returns `parseFloat("abc") = NaN`, not
0.3. -/
theorem initVolume_unparsable_counterexample :
    initVolume (some "abc") = JsNum.nan ∧
    initVolume (some "abc") ≠ JsNum.num ⟨0, [3]⟩ := by
  constructor
  · decide
  · decide

/-- C8 amended: the persisted volume is read once at initialization; the
initial volume is 0.3 exactly when the persisted value is absent or the
empty string (the only falsy string); any other value is handed to
`parseFloat`, whose failure value `NaN` becomes the initial volume for
unparsable strings. -/
theorem initVolume_default_characterization :
    initVolume none = JsNum.num ⟨0, [3]⟩ ∧
    initVolume (some "") = JsNum.num ⟨0, [3]⟩ ∧
    (∀ sv : String, sv ≠ "" → initVolume (some sv) = parseFloatJs sv) ∧
    (initState none).volume = JsNum.num ⟨0, [3]⟩ := by
  refine ⟨rfl, by decide, ?_, rfl⟩
  intro sv h
  simp [initVolume, h]

/-- Witness for the amended C8 at the unparsable string "abc". -/
theorem initVolume_default_characterization_witness :
    ("abc" : String) ≠ "" ∧ initVolume (some "abc") = parseFloatJs "abc" :=
  ⟨by decide, initVolume_default_characterization.2.2.1 "abc" (by decide)⟩

/-- C9: for every volume representable by the persisted decimal string
encoding, `setVolume(v)` followed by reinitializing the controller from the
store yields initial volume `v` (the decimal rendering written by
`changeVolume` parses back exactly). -/
theorem volume_persistence_roundtrip (s : HookState) (d : DecNum) (hwf : d.Wf) :
    (initState ((changeVolume (JsNum.num d) s).store)).volume = JsNum.num d := by
  have hstore : (changeVolume (JsNum.num d) s).store = some (decToString d) := by
    rw [changeVolume_store]
    rfl
  rw [hstore]
  show initVolume (some (decToString d)) = JsNum.num d
  simp only [initVolume]
  rw [if_neg (decToString_ne_empty d)]
  exact parseFloatJs_decToString hwf

/-- Witness for C9 at volume 0.7. -/
theorem volume_persistence_roundtrip_witness :
    DecNum.Wf ⟨0, [7]⟩ ∧
    (initState ((changeVolume (JsNum.num ⟨0, [7]⟩) (initState none)).store)).volume
      = JsNum.num ⟨0, [7]⟩ :=
  ⟨by decide, volume_persistence_roundtrip (initState none) ⟨0, [7]⟩ (by decide)⟩

/-- C10: `setVolume(v)` modifies only the volume value — the live state, the
persisted store and the active element's volume when one exists — and
leaves every other observable field (`isPlaying`, `currentSound`,
`isLoading`), the generation counter, both refs, the timer, the promise
queue and every non-active table entry exactly as before. -/
theorem setVolume_frame (v : JsNum) (s : HookState) :
    (changeVolume v s).isPlaying = s.isPlaying ∧
    (changeVolume v s).currentSound = s.currentSound ∧
    (changeVolume v s).isLoading = s.isLoading ∧
    (changeVolume v s).playId = s.playId ∧
    (changeVolume v s).audioRef = s.audioRef ∧
    (changeVolume v s).pendingAudioRef = s.pendingAudioRef ∧
    (changeVolume v s).loadTimeout = s.loadTimeout ∧
    (changeVolume v s).pendingPlays = s.pendingPlays ∧
    (changeVolume v s).errLog = s.errLog ∧
    (changeVolume v s).volume = v ∧
    (changeVolume v s).store = some (jsToString v) ∧
    (∀ g, s.audioRef = some g →
      (changeVolume v s).attempts g
        = (s.attempts g).map (fun att => { att with audio := { att.audio with volume := v } })) ∧
    (∀ g, s.audioRef ≠ some g → (changeVolume v s).attempts g = s.attempts g) := by
  refine ⟨by simp, by simp, by simp, by simp, by simp, by simp, by simp, by simp, by simp,
    by simp, by simp, ?_, ?_⟩
  · intro g hg
    rw [changeVolume_attempts, if_pos hg]
  · intro g hg
    rw [changeVolume_attempts, if_neg hg]

/-- Witness for C10 while rain is confirmed playing on generation 1. -/
theorem setVolume_frame_witness :
    ((run [Ev.play rainSound, Ev.resolveOk 1] (initState none)).audioRef = some 1) ∧
    ((changeVolume (JsNum.num ⟨0, [7]⟩)
        (run [Ev.play rainSound, Ev.resolveOk 1] (initState none))).isPlaying
      = (run [Ev.play rainSound, Ev.resolveOk 1] (initState none)).isPlaying ∧
     (changeVolume (JsNum.num ⟨0, [7]⟩)
        (run [Ev.play rainSound, Ev.resolveOk 1] (initState none))).attempts 1
      = ((run [Ev.play rainSound, Ev.resolveOk 1] (initState none)).attempts 1).map
          (fun att => { att with audio := { att.audio with volume := JsNum.num ⟨0, [7]⟩ } })) :=
  ⟨rfl,
    (setVolume_frame (JsNum.num ⟨0, [7]⟩)
      (run [Ev.play rainSound, Ev.resolveOk 1] (initState none))).1,
    (setVolume_frame (JsNum.num ⟨0, [7]⟩)
      (run [Ev.play rainSound, Ev.resolveOk 1] (initState none))).2.2.2.2.2.2.2.2.2.2.2.1 1 rfl⟩

end AmbientHook
